import Mathlib

set_option autoImplicit false

/-!
Verification of the Engyne core against its design notes.

The Python modules `core/quality.py`, `core/slot_fs.py`,
`core/dispatcher_worker.py`, `core/worker_indiamart.py` and
`core/slot_manager.py` are embedded shallowly: pure functions become Lean
functions, the stateful loops become explicit state-passing functions, and
filesystem / network effects enter as explicit data (journal lists, boolean
delivery oracles, integer timestamps).
-/

namespace Engyne

/-! ## core/quality.py -/

/-- Result dictionary of `quality_mapping` (`{"min_member_months": _, "max_age_hours": _}`). -/
structure QualityPolicy where
  min_member_months : Int
  max_age_hours : Int
deriving Repr, DecidableEq

/-- `quality_mapping(quality_level)` from core/quality.py:
clamp to [0, 100], then a four-row threshold table. -/
def quality_mapping (quality_level : Int) : QualityPolicy :=
  let q := max 0 (min 100 quality_level)
  if 90 ≤ q then ⟨24, 24⟩
  else if 70 ≤ q then ⟨12, 36⟩
  else if 40 ≤ q then ⟨6, 48⟩
  else ⟨0, 48⟩

/-! ## core/slot_fs.py

Filesystem paths are modelled as lists of path components of an already
resolved absolute path (`Path.resolve` output). A valid slot id contains no
slash, so `slots_root / slot_id` resolves by appending one component, where
`.` keeps the directory and `..` moves to the parent (`List.dropLast`).
`root.parents` of a resolved path are exactly its proper component-prefixes,
so Python's `root_parent != root and root_parent not in root.parents` guard
fails exactly when `slots_root` is a (possibly equal) prefix of the result. -/

/-- A character allowed by `SLOT_ID_PATTERN = ^[A-Za-z0-9._-]+$`. -/
def isSlotIdChar (c : Char) : Bool :=
  c.isAlpha || c.isDigit || c == '.' || c == '_' || c == '-'

/-- `SLOT_ID_PATTERN.fullmatch(slot_id)` as a boolean. -/
def slotIdMatches (s : String) : Bool :=
  !s.isEmpty && s.toList.all isSlotIdChar

/-- `validate_slot_id` from core/slot_fs.py: raises ValueError unless the
pattern matches the whole id. -/
def validate_slot_id (slot_id : String) : Except String String :=
  if slotIdMatches slot_id then .ok slot_id
  else .error "invalid slot_id (use alnum, dot, underscore, dash)"

/-- Resolution of `slots_root / comp` for a single component `comp` (a slot
id cannot contain `/`). -/
def resolveChild (root : List String) (comp : String) : List String :=
  if comp = "." then root
  else if comp = ".." then root.dropLast
  else root ++ [comp]

/-- The fields of `SlotPaths` that matter to the claims: the id and the
resolved slot directory (the other fields are fixed filenames under it). -/
structure SlotPaths where
  slot_id : String
  root : List String
deriving Repr, DecidableEq

/-- `slot_paths` from core/slot_fs.py: validate the id, resolve the
directory, and raise if the result escapes the slots root. -/
def slot_paths (slots_root : List String) (slot_id : String) : Except String SlotPaths :=
  match validate_slot_id slot_id with
  | .error e => .error e
  | .ok _ =>
    let root := resolveChild slots_root slot_id
    if slots_root.isPrefixOf root then .ok ⟨slot_id, root⟩
    else .error "slot path escapes slots root"

/-- `pat` begins the character list `s`. -/
def charsStartWith : List Char → List Char → Bool
  | _, [] => true
  | [], _ :: _ => false
  | c :: cs, p :: ps => c == p && charsStartWith cs ps

/-- `pat` occurs somewhere inside the character list `s`. -/
def charsContain : List Char → List Char → Bool
  | [], pat => pat.isEmpty
  | s@(_ :: t), pat => charsStartWith s pat || charsContain t pat

/-- Substring containment, `pat in s` for Python strings. -/
def strContains (s pat : String) : Bool :=
  charsContain s.toList pat.toList

/-! ## Small Python-value helpers shared by the embeddings -/

/-- Python `x or d` for an optional string `x` (absent and `""` are falsy). -/
def orStr (o : Option String) (d : String) : String :=
  match o with
  | some s => if s = "" then d else s
  | none => d

/-- Python truthiness of an optional string. -/
def optTruthy (o : Option String) : Bool :=
  match o with
  | some s => s ≠ ""
  | none => false

/-- Python `a or b` over two optional strings. -/
def orOpt (a b : Option String) : Option String :=
  match a with
  | some s => if s = "" then b else some s
  | none => b

/-- Normalize a falsy string value (`None` / `""`) to `none`. -/
def leadOpt (o : Option String) : Option String :=
  match o with
  | some s => if s = "" then none else some s
  | none => none

/-- ASCII lowering, Python `str.lower()` for the ASCII inputs this system
handles. -/
def strLower (s : String) : String :=
  String.mk (s.toList.map Char.toLower)

/-- Python `str.strip()`: drop whitespace from both ends. -/
def strTrim (s : String) : String :=
  String.mk (((s.toList.dropWhile Char.isWhitespace).reverse.dropWhile
    Char.isWhitespace).reverse)

/-- First binding of a string-keyed association list (a JSON object). -/
def assocGet {α : Type} (m : List (String × α)) (k : String) : Option α :=
  match m.find? (fun kv => kv.1 == k) with
  | some kv => some kv.2
  | none => none

/-- Update / insert a binding in a string-keyed association list
(`d[k] = v` on a JSON object). -/
def assocSet {α : Type} (m : List (String × α)) (k : String) (v : α) : List (String × α) :=
  match m with
  | [] => [(k, v)]
  | kv :: rest => if kv.1 == k then (k, v) :: rest else kv :: assocSet rest k v

/-! ## core/dispatcher_worker.py

The dispatcher's persistent JSON side files become association lists, the
queue file becomes a list of parsed lines, timestamps are integer seconds
(`time.time()` / `utc_now()` collapsed to one clock value `now` per call),
and the outcome of the single HTTP request a record's delivery may perform
enters as a boolean oracle `netOk` ("the response status was 2xx"). A
transport-level exception from `requests.post` is not modelled: it
propagates out of `process_record` uncaught and kills the process. -/

/-- `CONTACT_KEYS.get(channel, ())` from core/dispatcher_worker.py. -/
def CONTACT_KEYS (channel : String) : List String :=
  if channel = "whatsapp" then ["whatsapp", "phone", "mobile", "phone_number"]
  else if channel = "telegram" then ["telegram", "telegram_chat_id", "chat_id"]
  else if channel = "email" then ["email", "email_address"]
  else if channel = "push" then ["subscription", "push_subscription"]
  else []

/-- `cfg.channel in CONTACT_KEYS` (dict-key membership; exactly the channels
with a non-empty key list). -/
def channelRequiresContact (channel : String) : Bool :=
  !(CONTACT_KEYS channel).isEmpty

/-- A parsed queue record: the fields `process_record` reads. `payload` is
the nested JSON object holding contact values. -/
structure QRecord where
  lead_id : Option String
  slot_id : Option String
  payload : List (String × String)
deriving Repr, DecidableEq

/-- `extract_contact(payload, channel)`: first truthy value under the
channel's preference keys. -/
def extract_contact (payload : List (String × String)) (channel : String) : Option String :=
  (CONTACT_KEYS channel).findSome? fun key =>
    match assocGet payload key with
    | some v => if v = "" then none else some v
    | none => none

/-- One `contact_state[lead_id]` entry `{status, updated_at, detail?}`. -/
structure LeadState where
  status : String
  updated_at : Nat
  detail : Option String
deriving Repr, DecidableEq

/-- One `rate_state[slot_id]` entry `{window_start, sent}`. -/
structure RateSlot where
  window_start : Nat
  sent : Nat
deriving Repr, DecidableEq

abbrev ContactState := List (String × LeadState)
abbrev RateState := List (String × RateSlot)

/-- The `DispatcherConfig` fields that influence `process_record` outcomes
(the WAHA header fields only shape HTTP headers, never the result). -/
structure DispatcherConfig where
  channel : String
  rate_per_minute : Int
  dry_run : Bool
  dry_run_advance : Bool
  webhook_url : Option String
  webhook_secret : Option String
  waha_base_url : Option String := none
  waha_session : Option String := none
  waha_session_prefix : Option String := none
  waha_chat_suffix : String := "@c.us"
deriving Repr, DecidableEq

/-- `normalize_waha_chat_id(contact, suffix)`. -/
def normalize_waha_chat_id (contact : String) (suffix : String) : Option String :=
  let raw := strTrim contact
  if raw = "" then none
  else if strContains raw "@c.us" || strContains raw "@g.us" then some raw
  else
    let digits := String.mk (raw.toList.filter fun ch => ch.isDigit || ch == '+')
    let digits := String.mk (digits.toList.dropWhile fun ch => ch == '+')
    if digits = "" then none
    else some (digits ++ suffix)

/-- `resolve_waha_session(cfg, record)`. -/
def resolve_waha_session (cfg : DispatcherConfig) (record : QRecord) : Option String :=
  if optTruthy cfg.waha_session then cfg.waha_session
  else
    match leadOpt record.slot_id with
    | none => none
    | some sid => some (orStr cfg.waha_session_prefix "slot-" ++ sid)

/-- `send_whatsapp_waha(cfg, contact, record)`; `netOk` is the 2xx-ness of
the HTTP response when a request is actually issued. -/
def send_whatsapp_waha (cfg : DispatcherConfig) (contact : String) (record : QRecord)
    (netOk : Bool) : Bool :=
  let session :=
    if !optTruthy cfg.waha_base_url || !optTruthy cfg.waha_session then
      resolve_waha_session cfg record
    else cfg.waha_session
  if !optTruthy cfg.waha_base_url || !optTruthy session then false
  else
    match normalize_waha_chat_id contact cfg.waha_chat_suffix with
    | none => false
    | some _ => netOk

/-- `can_send(rate_state, slot_id, rate_per_minute)`: the boolean verdict,
paired with the rate map as left behind (Python mutates it in place only on
the refusing branch). -/
def can_send (rate_state : RateState) (slot_id : String) (rate_per_minute : Int)
    (now : Nat) : Bool × RateState :=
  if rate_per_minute ≤ 0 then (true, rate_state)
  else
    let slot0 := (assocGet rate_state slot_id).getD ⟨now, 0⟩
    let slot1 := if slot0.window_start + 60 ≤ now then (⟨now, 0⟩ : RateSlot) else slot0
    if rate_per_minute ≤ (slot1.sent : Int) then (false, assocSet rate_state slot_id slot1)
    else (true, rate_state)

/-- `mark_sent(rate_state, slot_id)`. -/
def mark_sent (rate_state : RateState) (slot_id : String) (now : Nat) : RateState :=
  let slot0 := (assocGet rate_state slot_id).getD ⟨now, 0⟩
  let slot1 := if slot0.window_start + 60 ≤ now then (⟨now, 0⟩ : RateSlot) else slot0
  assocSet rate_state slot_id ⟨slot1.window_start, slot1.sent + 1⟩

/-- The `record` field of a journal entry: a parsed record, or the raw text
of a line that failed to parse (`{"raw": line}`). -/
inductive JRecord where
  | obj (r : QRecord)
  | raw (line : String)
deriving Repr, DecidableEq

/-- One `log_delivery` entry. `log_delivery` appends the identical entry to
both `*.sent.jsonl` and `*.proofs.jsonl`, so one list models both journals. -/
structure JEntry where
  status : String
  detail : Option String
  sent_at : Nat
  record : JRecord
deriving Repr, DecidableEq

/-- The value of one `process_record` call: its return pair `(advance,
mutated)` plus the states it left behind and the journal entries it wrote. -/
structure PRResult where
  advance : Bool
  mutated : Bool
  contact : ContactState
  rate : RateState
  journal : List JEntry
deriving Repr, DecidableEq

/-- `record.get("slot_id") or "unknown"`. -/
def slotKey (record : QRecord) : String :=
  orStr record.slot_id "unknown"

/-- The tail of `process_record` after the terminal-status checks (from the
`payload = record.get("payload") or {}` line onward). -/
def process_record_deliver (cfg : DispatcherConfig) (record : QRecord)
    (contact_state : ContactState) (rate_state : RateState)
    (now : Nat) (netOk : Bool) (lead_id slot_id : String) : PRResult :=
  let contact := extract_contact record.payload cfg.channel
  if cfg.dry_run = true then
    if cfg.dry_run_advance = true then
      { advance := true, mutated := true,
        contact := assocSet contact_state lead_id ⟨"skipped", now, some "dry_run"⟩,
        rate := rate_state,
        journal := [⟨"skipped", some "dry_run", now, .obj record⟩] }
    else
      { advance := false, mutated := true,
        contact := assocSet contact_state lead_id ⟨"held", now, some "dry_run_hold"⟩,
        rate := rate_state, journal := [] }
  else if channelRequiresContact cfg.channel = true ∧ contact = none then
    { advance := false, mutated := true,
      contact := assocSet contact_state lead_id ⟨"blocked", now, some "missing_contact"⟩,
      rate := rate_state,
      journal := [⟨"blocked", some "missing_contact", now, .obj record⟩] }
  else if cfg.channel = "whatsapp" ∧ optTruthy cfg.waha_base_url = true ∧
      optTruthy cfg.waha_session = true then
    if send_whatsapp_waha cfg (contact.getD "") record netOk = true then
      { advance := true, mutated := true,
        contact := assocSet contact_state lead_id ⟨"sent", now, none⟩,
        rate := mark_sent rate_state slot_id now,
        journal := [⟨"sent", some "waha", now, .obj record⟩] }
    else
      { advance := false, mutated := true,
        contact := assocSet contact_state lead_id ⟨"failed", now, some "waha_error"⟩,
        rate := rate_state,
        journal := [⟨"failed", some "waha_error", now, .obj record⟩] }
  else if optTruthy cfg.webhook_url = false then
    { advance := false, mutated := true,
      contact := assocSet contact_state lead_id ⟨"blocked", now, some "missing_webhook"⟩,
      rate := rate_state,
      journal := [⟨"blocked", some "missing_webhook", now, .obj record⟩] }
  else
    let cs := can_send rate_state slot_id cfg.rate_per_minute now
    if cs.1 = false then
      { advance := false, mutated := false,
        contact := contact_state, rate := cs.2, journal := [] }
    else if netOk = true then
      { advance := true, mutated := true,
        contact := assocSet contact_state lead_id ⟨"sent", now, none⟩,
        rate := mark_sent cs.2 slot_id now,
        journal := [⟨"sent", none, now, .obj record⟩] }
    else
      { advance := false, mutated := true,
        contact := assocSet contact_state lead_id ⟨"failed", now, some "webhook_error"⟩,
        rate := cs.2,
        journal := [⟨"failed", some "webhook_error", now, .obj record⟩] }

/-- `process_record(cfg, paths, record, contact_state, rate_state)`. -/
def process_record (cfg : DispatcherConfig) (record : QRecord)
    (contact_state : ContactState) (rate_state : RateState)
    (now : Nat) (netOk : Bool) : PRResult :=
  let slot_id := slotKey record
  match leadOpt record.lead_id with
  | none =>
    { advance := true, mutated := true, contact := contact_state, rate := rate_state,
      journal := [⟨"invalid", some "missing lead_id", now, .obj record⟩] }
  | some lead_id =>
    match assocGet contact_state lead_id with
    | some st =>
      if st.status = "sent" ∨ st.status = "skipped" then
        ⟨true, false, contact_state, rate_state, []⟩
      else if st.status = "blocked" ∨ st.status = "held" then
        ⟨false, false, contact_state, rate_state, []⟩
      else
        process_record_deliver cfg record contact_state rate_state now netOk lead_id slot_id
    | none =>
      process_record_deliver cfg record contact_state rate_state now netOk lead_id slot_id

/-- One line of `{channel}_queue.jsonl` as the dispatcher's loop sees it:
blank after strip, failing `json.loads`, or a parsed record (tagged with
that record's delivery-response oracle for this pass). -/
inductive QLine where
  | blank
  | malformed (raw : String)
  | parsed (r : QRecord) (netOk : Bool)
deriving Repr, DecidableEq

/-- The evolving state of one `process_queue` pass. `offset` is the local
variable; `fileOffset` is what the offset file holds (written by
`write_offset` only on advance); `savedContact` / `savedRate` are the
on-disk side files (written by `save_json` only when `mutated`). -/
structure QueueState where
  contact : ContactState
  rate : RateState
  savedContact : ContactState
  savedRate : RateState
  offset : Nat
  fileOffset : Nat
  journal : List JEntry
  processed : Nat
deriving Repr, DecidableEq

/-- The line loop of `process_queue`: `idx` is the enumeration index of the
first element of the remaining line list. -/
def process_lines (cfg : DispatcherConfig) (now : Nat) :
    List QLine → Nat → QueueState → QueueState
  | [], _, st => st
  | line :: rest, idx, st =>
    if idx < st.offset then process_lines cfg now rest (idx + 1) st
    else
      match line with
      | .blank => process_lines cfg now rest (idx + 1) { st with offset := idx + 1 }
      | .malformed raw =>
        process_lines cfg now rest (idx + 1)
          { st with offset := idx + 1,
                    journal := st.journal ++ [⟨"invalid", some "json_parse_error", now, .raw raw⟩] }
      | .parsed r netOk =>
        let res := process_record cfg r st.contact st.rate now netOk
        let st1 := { st with contact := res.contact, rate := res.rate,
                             journal := st.journal ++ res.journal }
        let st2 :=
          if res.mutated then { st1 with savedContact := res.contact, savedRate := res.rate }
          else st1
        if res.advance then
          process_lines cfg now rest (idx + 1)
            { st2 with offset := idx + 1, fileOffset := idx + 1,
                       processed := st2.processed + 1 }
        else st2

/-- One full `process_queue` pass starting from the persisted side files and
offset (both `offset` and the offset file start at the value `read_offset`
returned). -/
def process_queue (cfg : DispatcherConfig) (lines : List QLine) (now : Nat)
    (contact : ContactState) (rate : RateState) (offset : Nat) : QueueState :=
  process_lines cfg now lines 0 ⟨contact, rate, contact, rate, offset, offset, [], 0⟩

/-- The lead id a journal entry is about (None for unparseable lines). -/
def jLead (e : JEntry) : Option String :=
  match e.record with
  | .obj r => leadOpt r.lead_id
  | .raw _ => none

/-- How many `sent` journal entries a journal holds for one lead. -/
def sentCount (l : String) (j : List JEntry) : Nat :=
  (j.filter fun e => e.status == "sent" && jLead e == some l).length

/-- Whether the contact state records the lead as sent. -/
def leadSentB (c : ContactState) (l : String) : Bool :=
  match assocGet c l with
  | some st => st.status == "sent"
  | none => false

/-! ## core/worker_indiamart.py

The per-cycle candidate loop of `worker_main` (its lines 499-638). Browser
and network effects — the extraction of email / phone from page text, the
fallback uuid, the click, the inline and consumed-view verification — enter
through a per-candidate `ScrapeOracle`. The text-parsing helpers
`parse_age_hours` and `parse_member_months` (worker variants) are embedded
over exact rationals / integers. -/

/-- Digits to the number they denote. -/
def digitsVal (cs : List Char) : Nat :=
  cs.foldl (fun n c => n * 10 + (c.toNat - 48)) 0

/-- The first match of `(\d+(?:\.\d+)?)` in a character list: integer digits
and (possibly empty) fractional digits. -/
def firstNumber : List Char → Option (List Char × List Char)
  | [] => none
  | c :: rest =>
    if c.isDigit then
      let ds := (c :: rest).takeWhile Char.isDigit
      let rest' := (c :: rest).dropWhile Char.isDigit
      match rest' with
      | '.' :: r2 =>
        let fs := r2.takeWhile Char.isDigit
        some (ds, fs)
      | _ => some (ds, [])
    else firstNumber rest

/-- The rational a decimal literal denotes. -/
def numVal (ds fs : List Char) : ℚ :=
  (digitsVal ds : ℚ) + (digitsVal fs : ℚ) / ((10 : ℚ) ^ fs.length)

/-- `parse_age_hours(raw)` from core/worker_indiamart.py (the worker
variant: units `min`, `hour`, `day`). -/
def parse_age_hours (raw : Option String) : Option ℚ :=
  match raw with
  | none => none
  | some r =>
    if r = "" then none
    else
      let text := strLower r
      match firstNumber text.toList with
      | none => none
      | some (ds, fs) =>
        let value := numVal ds fs
        if strContains text "min" then some (value / 60)
        else if strContains text "hour" then some value
        else if strContains text "day" then some (value * 24)
        else none

/-- Case-insensitive literal match: drop `lit` from the front of `cs`. -/
def dropLitCI : List Char → List Char → Option (List Char)
  | [], cs => some cs
  | _ :: _, [] => none
  | p :: ps, c :: cs => if p.toLower = c.toLower then dropLitCI ps cs else none

/-- Try `member since\s+(\d+)\s+month` (ignore-case) anchored at the head. -/
def tryMemberAt (cs : List Char) : Option Nat :=
  match dropLitCI "member since".toList cs with
  | none => none
  | some r1 =>
    let r2 := r1.dropWhile Char.isWhitespace
    if r1.length = r2.length then none
    else
      let ds := r2.takeWhile Char.isDigit
      if ds.isEmpty then none
      else
        let r3 := r2.dropWhile Char.isDigit
        let r4 := r3.dropWhile Char.isWhitespace
        if r3.length = r4.length then none
        else
          match dropLitCI "month".toList r4 with
          | some _ => some (digitsVal ds)
          | none => none

/-- `re.search` of the member-since pattern: leftmost anchored match. -/
def searchMemberSince : List Char → Option Nat
  | [] => none
  | l@(_ :: rest) =>
    match tryMemberAt l with
    | some n => some n
    | none => searchMemberSince rest

/-- `parse_member_months(raw)` from core/worker_indiamart.py (the worker
variant: `member since\s+(\d+)\s+month`, no year handling). -/
def parse_member_months (raw : Option String) : Option Int :=
  match raw with
  | none => none
  | some r =>
    if r = "" then none
    else
      match searchMemberSince r.toList with
      | some n => some (n : Int)
      | none => none

/-- `text_contains_any(text, keywords)` from core/worker_indiamart.py. -/
def text_contains_any (text : String) (keywords : List String) : Bool :=
  keywords.any fun k => strContains (strLower text) k

/-- One raw scraped lead card, as `scrape_recent_leads` returns it (after
the loop's initial `strip()` of the raw lead id). -/
structure Candidate where
  lead_id_raw : String
  title : Option String
  country : Option String
  time_text : Option String
  member_since_text : Option String
  category_text : Option String
  text : String
  availability : List String
deriving Repr, DecidableEq

/-- `lead_signature(lead)` from core/worker_indiamart.py. -/
def lead_signature (c : Candidate) : String :=
  let parts := [strLower (strTrim c.lead_id_raw),
                strLower (strTrim (orStr c.title "")),
                strLower (strTrim (orStr c.country "")),
                strLower (strTrim (orStr c.time_text ""))]
  let sig := "|".intercalate (parts.filter (· ≠ ""))
  String.mk (sig.toList.take 240)

/-- The browser / network outcomes one candidate's processing can consume:
the regex extractions from the scraped card text, the uuid fallback id, and
the click / verification results. -/
structure ScrapeOracle where
  email : Option String
  phone : Option String
  fresh_id : String
  clickOk : Bool
  detail_email : Option String
  detail_phone : Option String
  inline_verified : Bool
  consumed_verified : Bool
  consumed_email : Option String
  consumed_phone : Option String
deriving Repr, DecidableEq

/-- The per-cycle configuration values `worker_main` derives from
`slot_config.yml` at the top of the cycle. -/
structure WorkerCfg where
  slot_id : String
  run_id : String
  quality_level : Int
  auto_buy : Bool
  dry_run : Bool
  max_per_cycle : Int
  max_clicks : Int
  allowed_countries : List String
  blocked_countries : List String
  keywords : List String
  keywords_exclude : List String
  required_methods : List String
deriving Repr, DecidableEq

/-- One line of `leads.jsonl` as `worker_main` builds it (line 588): note
there is no reject field of any kind. -/
structure LeadRecord where
  slot_id : String
  run_id : String
  lead_id : String
  title : Option String
  country : Option String
  time_text : Option String
  age_hours : Option ℚ
  member_months : Option Int
  text : String
  member_since_text : Option String
  category_text : Option String
  contact : Option String
  email : Option String
  phone : Option String
  availability : List String
  quality_level : Int
  policy : QualityPolicy
  auto_buy : Bool
  dry_run : Bool
  clicked : Bool
  verified : Bool
  verification_source : Option String
deriving Repr, DecidableEq

/-- The identifying fields of one `emit_verified` POST body. -/
structure VEvent where
  slot_id : String
  lead_id : String
deriving Repr, DecidableEq

/-- The loop state of one cycle (dedup sets live across cycles of a run;
`appended` is `leads.jsonl` growth, `emitted` the attempted verified
POSTs — `emit_verified` swallows every exception, so an attempt never
changes the control flow). -/
structure WState where
  seen_leads : List String
  seen_signatures : List String
  clicked_leads : List String
  clicks_sent : Int
  leads_kept : Int
  appended : List LeadRecord
  emitted : List VEvent
deriving Repr, DecidableEq

/-- Insertion into an ascending list of strings. -/
def insertSorted (s : String) : List String → List String
  | [] => [s]
  | t :: rest => if s ≤ t then s :: t :: rest else t :: insertSorted s rest

/-- Python `sorted` over strings. -/
def sortStrings (l : List String) : List String :=
  l.foldr insertSorted []

/-- The normalized availability set of a candidate (line 511). -/
def wsAvail (c : Candidate) : List String :=
  ((c.availability.map fun v => strLower (strTrim v)).filter (· ≠ "")).dedup

/-- `age_hours` as the loop derives it (line 513). -/
def wsAge (c : Candidate) : Option ℚ :=
  parse_age_hours (some (orStr c.time_text c.text))

/-- `member_months` as the loop derives it (line 515). -/
def wsMember (c : Candidate) : Option Int :=
  parse_member_months (some (orStr c.member_since_text c.text))

/-- The country haystack (lines 524 / 528). -/
def wsCountryBlob (c : Candidate) : String :=
  strLower (orStr c.country "" ++ " " ++ c.text)

/-- The keyword haystack (line 532). -/
def wsTextForKeywords (c : Candidate) : String :=
  " ".intercalate [orStr c.title "", orStr c.category_text "", c.text]

/-- The age gate (line 518): true when the candidate is to be skipped. -/
def wsAgeReject (policy : QualityPolicy) (c : Candidate) : Bool :=
  match wsAge c with
  | some a => decide ((policy.max_age_hours : ℚ) < a)
  | none => false

/-- The membership gate (line 520). -/
def wsMemberReject (policy : QualityPolicy) (c : Candidate) : Bool :=
  match wsMember c with
  | some m => decide (m < policy.min_member_months)
  | none => false

/-- The `required_contact_methods` check (lines 547-556): true when all
required methods are available. -/
def requiredOk (methods : List String) (he hp hw : Bool) : Bool :=
  methods.all fun m =>
    !(m == "email" && !he) && !(m == "phone" && !hp) && !(m == "whatsapp" && !hw)

/-- The whole filter of the candidate loop as one verdict: true when some
gate rejects the candidate (each gate `continue`s in the source). -/
def wsFilterReject (cfg : WorkerCfg) (policy : QualityPolicy) (c : Candidate)
    (o : ScrapeOracle) : Bool :=
  wsAgeReject policy c ||
  wsMemberReject policy c ||
  (!cfg.blocked_countries.isEmpty && text_contains_any (wsCountryBlob c) cfg.blocked_countries) ||
  (!cfg.allowed_countries.isEmpty && !text_contains_any (wsCountryBlob c) cfg.allowed_countries) ||
  (!cfg.keywords.isEmpty && !text_contains_any (wsTextForKeywords c) cfg.keywords) ||
  (!cfg.keywords_exclude.isEmpty && text_contains_any (wsTextForKeywords c) cfg.keywords_exclude) ||
  (!cfg.required_methods.isEmpty &&
    !requiredOk cfg.required_methods
      (optTruthy o.email || (wsAvail c).contains "email")
      (optTruthy o.phone || (wsAvail c).contains "phone")
      ((wsAvail c).contains "whatsapp"))

/-- `signature = lead_signature(lead) or lead_id_raw.lower()` (line 501). -/
def wsSig (c : Candidate) : String :=
  let signature0 := lead_signature c
  if signature0 = "" then strLower c.lead_id_raw else signature0

/-- `lead_id = lead_id_raw or f"{slot}-{run}-{uuid4()}"` (line 504); the
uuid arrives through the oracle. -/
def wsLeadId (c : Candidate) (o : ScrapeOracle) : String :=
  if c.lead_id_raw ≠ "" then c.lead_id_raw else o.fresh_id

/-- The click guard (line 563). -/
def wsCanClick (cfg : WorkerCfg) (st : WState) (c : Candidate) : Prop :=
  cfg.auto_buy = true ∧ cfg.dry_run = false ∧
    st.clicks_sent < cfg.max_clicks ∧ wsSig c ∉ st.clicked_leads

instance (cfg : WorkerCfg) (st : WState) (c : Candidate) :
    Decidable (wsCanClick cfg st c) := by
  unfold wsCanClick
  infer_instance

/-- Whether `attempt_click` was tried and reported success (lines 563-564). -/
def wsClicked (cfg : WorkerCfg) (st : WState) (c : Candidate) (o : ScrapeOracle) : Bool :=
  decide (wsCanClick cfg st c) && o.clickOk

/-- `verified` via `attempt_verify` (line 573). -/
def wsInlineV (cfg : WorkerCfg) (st : WState) (c : Candidate) (o : ScrapeOracle) : Bool :=
  wsClicked cfg st c o && o.inline_verified

/-- `verified` via `verify_in_consumed` (line 577). -/
def wsConsumedV (cfg : WorkerCfg) (st : WState) (c : Candidate) (o : ScrapeOracle) : Bool :=
  wsClicked cfg st c o && !o.inline_verified && o.consumed_verified

/-- The record's final `verified` flag. -/
def wsVerified (cfg : WorkerCfg) (st : WState) (c : Candidate) (o : ScrapeOracle) : Bool :=
  wsInlineV cfg st c o || wsConsumedV cfg st c o

/-- The `leads.jsonl` record the kept path builds (lines 588-612),
including the contact enrichment of the click / verification branches. -/
def wsRecord (cfg : WorkerCfg) (policy : QualityPolicy) (st : WState)
    (c : Candidate) (o : ScrapeOracle) : LeadRecord :=
  let clicked := wsClicked cfg st c o
  let consumedV := wsConsumedV cfg st c o
  let email0 := o.email
  let phone0 := o.phone
  let contact0 := orOpt phone0 email0
  let email1 := if clicked then orOpt email0 o.detail_email else email0
  let phone1 := if clicked then orOpt phone0 o.detail_phone else phone0
  let contact1 := if clicked then orOpt contact0 (orOpt phone1 email1) else contact0
  let email2 := if consumedV then orOpt email1 o.consumed_email else email1
  let phone2 := if consumedV then orOpt phone1 o.consumed_phone else phone1
  let contact2 := if consumedV then orOpt contact1 (orOpt phone2 email2) else contact1
  { slot_id := cfg.slot_id, run_id := cfg.run_id, lead_id := wsLeadId c o,
    title := c.title, country := c.country, time_text := c.time_text,
    age_hours := wsAge c, member_months := wsMember c,
    text := String.mk (c.text.toList.take 2000),
    member_since_text := c.member_since_text, category_text := c.category_text,
    contact := contact2, email := email2, phone := phone2,
    availability := sortStrings (wsAvail c),
    quality_level := cfg.quality_level, policy := policy, auto_buy := cfg.auto_buy,
    dry_run := cfg.dry_run, clicked := clicked,
    verified := wsVerified cfg st c o,
    verification_source :=
      if wsInlineV cfg st c o = true then some "inline"
      else if consumedV = true then some "consumed" else none }

/-- The loop state right after the kept path's appends (lines 613-617). -/
def wsKeepState (cfg : WorkerCfg) (policy : QualityPolicy) (st : WState)
    (c : Candidate) (o : ScrapeOracle) : WState :=
  let signature := wsSig c
  let lead_id := wsLeadId c o
  { st with
    appended := st.appended ++ [wsRecord cfg policy st c o],
    seen_leads := st.seen_leads ++ [lead_id],
    seen_signatures :=
      if signature ≠ "" then st.seen_signatures ++ [signature]
      else st.seen_signatures,
    clicked_leads :=
      if wsClicked cfg st c o then
        st.clicked_leads ++ [if signature = "" then lead_id else signature]
      else st.clicked_leads,
    clicks_sent :=
      if wsClicked cfg st c o then st.clicks_sent + 1 else st.clicks_sent,
    leads_kept := st.leads_kept + 1 }

/-- The body of `for lead in leads_raw:` (lines 499-638) for one candidate:
returns the new state and whether the loop `break`s (the per-cycle cap).
Note the source checks the cap (line 618) before the `if verified:` emit
(line 620), so a record that fills the cap breaks out before any emit. -/
def worker_step (cfg : WorkerCfg) (policy : QualityPolicy) (st : WState)
    (c : Candidate) (o : ScrapeOracle) : WState × Bool :=
  let signature := wsSig c
  if signature ≠ "" ∧ signature ∈ st.seen_signatures then (st, false)
  else
    let lead_id := wsLeadId c o
    if lead_id ∈ st.seen_leads then (st, false)
    else if wsAgeReject policy c = true then (st, false)
    else if wsMemberReject policy c = true then (st, false)
    else if (!cfg.blocked_countries.isEmpty &&
        text_contains_any (wsCountryBlob c) cfg.blocked_countries) = true then (st, false)
    else if (!cfg.allowed_countries.isEmpty &&
        !text_contains_any (wsCountryBlob c) cfg.allowed_countries) = true then (st, false)
    else if (!cfg.keywords.isEmpty &&
        !text_contains_any (wsTextForKeywords c) cfg.keywords) = true then (st, false)
    else if (!cfg.keywords_exclude.isEmpty &&
        text_contains_any (wsTextForKeywords c) cfg.keywords_exclude) = true then (st, false)
    else if (!cfg.required_methods.isEmpty &&
        !requiredOk cfg.required_methods
          (optTruthy o.email || (wsAvail c).contains "email")
          (optTruthy o.phone || (wsAvail c).contains "phone")
          ((wsAvail c).contains "whatsapp")) = true then
      (st, false)
    else
      let st1 := wsKeepState cfg policy st c o
      if cfg.max_per_cycle ≤ st1.leads_kept then (st1, true)
      else if wsVerified cfg st c o = true then
        ({ st1 with emitted := st1.emitted ++ [⟨cfg.slot_id, lead_id⟩] }, false)
      else (st1, false)

/-- The candidate loop over one scraped batch. -/
def worker_cycle (cfg : WorkerCfg) (policy : QualityPolicy) :
    List (Candidate × ScrapeOracle) → WState → WState
  | [], st => st
  | (c, o) :: rest, st =>
    match worker_step cfg policy st c o with
    | (st', true) => st'
    | (st', false) => worker_cycle cfg policy rest st'

/-! ## core/slot_manager.py

The alert decision of `SlotManager.enforce_heartbeat` for one managed slot.
Wall-clock datetimes become integer seconds. -/

/-- `float(os.environ.get("ALERTS_MIN_SECONDS", "300"))`: the default. -/
def ALERTS_MIN_SECONDS_default : Int := 300

/-- The per-slot supervisor fields `enforce_heartbeat` reads. -/
structure ManagedView where
  disabled : Bool
  heartbeat_ts : Option Int
  proc_dead : Bool
  pid_dead : Bool
  last_alert_ts : Option Int
  last_alert_reason : Option String
deriving Repr, DecidableEq

/-- The composed restart reason string (lines 216-227). -/
def restart_reason_text (now ttl : Int) (m : ManagedView) : String :=
  let stale_hb := m.heartbeat_ts = none ∨ ∃ ts, m.heartbeat_ts = some ts ∧ ttl < now - ts
  let reasons : List String :=
    (if stale_hb then
      [match m.heartbeat_ts with
       | none => "heartbeat missing"
       | some ts => "heartbeat stale (" ++ toString (now - ts) ++ "s)"]
     else []) ++
    (if m.proc_dead then ["process exited"] else []) ++
    (if m.pid_dead then ["pid not alive"] else [])
  if reasons.isEmpty then "unknown" else ", ".intercalate reasons

/-- Whether the slot needs restart (line 215). -/
def needs_restart (now ttl : Int) (m : ManagedView) : Bool :=
  (match m.heartbeat_ts with
   | none => true
   | some ts => decide (ttl < now - ts)) || m.proc_dead || m.pid_dead

/-- The `should_alert` computation of `enforce_heartbeat` (lines 228-236). -/
def should_alert (now throttle : Int) (m : ManagedView) (reason_text : String) : Bool :=
  let s :=
    match m.last_alert_ts with
    | none => true
    | some ts => decide (throttle ≤ now - ts)
  if m.last_alert_reason ≠ some reason_text then true else s

/-- One slot's enforcement outcome: whether an alert went out and whether a
restart was requested (lines 202-244; disabled slots and slots with no
snapshot are skipped by the caller loop). -/
def enforce_slot (now ttl throttle : Int) (m : ManagedView) : Bool × Bool :=
  if m.disabled then (false, false)
  else if needs_restart now ttl m then
    (should_alert now throttle m (restart_reason_text now ttl m), true)
  else (false, false)

/-! ## Theorems -/

/-- C7: `quality_mapping` first clamps its argument to [0, 100] and then
returns exactly the table (q ≥ 90 ↦ ⟨24, 24⟩; 70 ≤ q < 90 ↦ ⟨12, 36⟩;
40 ≤ q < 70 ↦ ⟨6, 48⟩; q < 40 ↦ ⟨0, 48⟩); over q ∈ [0, 100] it is
therefore piecewise-constant, non-increasing in `max_age_hours` and
non-decreasing in `min_member_months`. -/
theorem quality_mapping_table_and_monotone :
    (∀ q : Int, quality_mapping q = quality_mapping (max 0 (min 100 q))) ∧
    (∀ q : Int, 90 ≤ q → quality_mapping q = ⟨24, 24⟩) ∧
    (∀ q : Int, 70 ≤ q → q < 90 → quality_mapping q = ⟨12, 36⟩) ∧
    (∀ q : Int, 40 ≤ q → q < 70 → quality_mapping q = ⟨6, 48⟩) ∧
    (∀ q : Int, q < 40 → quality_mapping q = ⟨0, 48⟩) ∧
    (∀ q₁ q₂ : Int, 0 ≤ q₁ → q₁ ≤ q₂ → q₂ ≤ 100 →
      (quality_mapping q₂).max_age_hours ≤ (quality_mapping q₁).max_age_hours ∧
      (quality_mapping q₁).min_member_months ≤ (quality_mapping q₂).min_member_months) := by
  refine ⟨?_, ?_, ?_, ?_, ?_, ?_⟩
  · intro q
    simp only [quality_mapping]
    have h : max 0 (min 100 (max 0 (min 100 q))) = max 0 (min 100 q) := by omega
    rw [h]
  · intro q hq
    simp only [quality_mapping]
    split_ifs <;> first | rfl | omega
  · intro q h1 h2
    simp only [quality_mapping]
    split_ifs <;> first | rfl | omega
  · intro q h1 h2
    simp only [quality_mapping]
    split_ifs <;> first | rfl | omega
  · intro q h1
    simp only [quality_mapping]
    split_ifs <;> first | rfl | omega
  · intro q₁ q₂ h0 h12 h100
    simp only [quality_mapping]
    split_ifs <;> constructor <;> dsimp only <;> omega

/-- Witness for `quality_mapping_table_and_monotone` at concrete levels. -/
theorem quality_mapping_table_and_monotone_witness :
    quality_mapping 95 = ⟨24, 24⟩ ∧
    quality_mapping 55 = ⟨6, 48⟩ ∧
    ((quality_mapping 80).max_age_hours ≤ (quality_mapping 10).max_age_hours ∧
      (quality_mapping 10).min_member_months ≤ (quality_mapping 80).min_member_months) :=
  ⟨quality_mapping_table_and_monotone.2.1 95 (by decide),
   quality_mapping_table_and_monotone.2.2.2.1 55 (by decide) (by decide),
   quality_mapping_table_and_monotone.2.2.2.2.2 10 80 (by decide) (by decide) (by decide)⟩

/-- C8 counterexample: the slot id "a..b" contains ".." yet `slot_paths`
accepts it — `SLOT_ID_PATTERN` allows dots anywhere, and "a..b" is an
ordinary child directory name, so no error is raised. -/
theorem slot_paths_accepts_dotdot_substring :
    strContains "a..b" ".." = true ∧
    slot_paths ["srv", "slots"] "a..b" = .ok ⟨"a..b", ["srv", "slots", "a..b"]⟩ := by
  constructor <;> rfl

/-- C8 amended: a slot id with any character outside [A-Za-z0-9._-] (so in
particular any id containing a slash) is rejected by `validate_slot_id`;
the id ".." itself is rejected by the escape check whenever the slots root
is not the filesystem root; and every accepted id resolves to a directory
inside the slots root (the root itself for the id "."). An id that merely
contains ".." as a substring of an otherwise valid name is accepted. -/
theorem slot_paths_boundary (slots_root : List String) (slot_id : String) :
    ((∃ ch ∈ slot_id.toList, isSlotIdChar ch = false) →
      slot_paths slots_root slot_id =
        .error "invalid slot_id (use alnum, dot, underscore, dash)") ∧
    (slots_root ≠ [] →
      slot_paths slots_root ".." = .error "slot path escapes slots root") ∧
    (∀ p, slot_paths slots_root slot_id = .ok p → slots_root <+: p.root) := by
  refine ⟨?_, ?_, ?_⟩
  · rintro ⟨ch, hmem, hbad⟩
    have hall : slot_id.toList.all isSlotIdChar = false := by
      rw [Bool.eq_false_iff]
      intro hc
      rw [List.all_eq_true] at hc
      have := hc ch hmem
      simp [hbad] at this
    have hmatch : slotIdMatches slot_id = false := by
      unfold slotIdMatches
      rw [hall, Bool.and_false]
    simp [slot_paths, validate_slot_id, hmatch]
  · intro hne
    have hmatch : slotIdMatches ".." = true := by decide
    have hnp : slots_root.isPrefixOf (resolveChild slots_root "..") = false := by
      have hres : resolveChild slots_root ".." = slots_root.dropLast := by rfl
      rw [hres, Bool.eq_false_iff]
      intro hc
      have hpre := List.isPrefixOf_iff_prefix.mp hc
      have hlen := hpre.length_le
      rw [List.length_dropLast] at hlen
      have hpos : 0 < slots_root.length := List.length_pos.mpr hne
      omega
    simp [slot_paths, validate_slot_id, hmatch, hnp]
  · intro p hp
    unfold slot_paths at hp
    rcases hv : validate_slot_id slot_id with e | s
    · rw [hv] at hp
      exact absurd hp (by simp)
    · rw [hv] at hp
      dsimp only at hp
      rcases hpre : slots_root.isPrefixOf (resolveChild slots_root slot_id) with _ | _
      · rw [hpre] at hp
        simp at hp
      · rw [hpre] at hp
        simp at hp
        rw [← hp]
        exact List.isPrefixOf_iff_prefix.mp hpre

/-- Witness for `slot_paths_boundary` at concrete inputs. -/
theorem slot_paths_boundary_witness :
    slot_paths ["srv", "slots"] "x/y" =
      .error "invalid slot_id (use alnum, dot, underscore, dash)" ∧
    slot_paths ["srv", "slots"] ".." = .error "slot path escapes slots root" ∧
    ["srv", "slots"] <+: (["srv", "slots", "s1"] : List String) :=
  ⟨(slot_paths_boundary ["srv", "slots"] "x/y").1 ⟨'/', by decide, by decide⟩,
   (slot_paths_boundary ["srv", "slots"] "..").2.1 (by decide),
   (slot_paths_boundary ["srv", "slots"] "s1").2.2 ⟨"s1", ["srv", "slots", "s1"]⟩ (by rfl)⟩

/-- C9: for a non-disabled slot that needs restart, `enforce_heartbeat`
emits an alert iff the composed restart reason differs from the slot's last
alerted reason, or no previous alert exists for the slot, or at least the
throttle interval (`ALERTS_MIN_SECONDS`, default 300 s) has elapsed since
the slot's previous alert; the restart proceeds either way. -/
theorem enforce_slot_alert_iff (now ttl throttle : Int) (m : ManagedView)
    (hd : m.disabled = false) (hr : needs_restart now ttl m = true) :
    ALERTS_MIN_SECONDS_default = 300 ∧
    ((enforce_slot now ttl throttle m).1 = true ↔
      (m.last_alert_reason ≠ some (restart_reason_text now ttl m) ∨
       m.last_alert_ts = none ∨
       ∃ ts, m.last_alert_ts = some ts ∧ throttle ≤ now - ts)) ∧
    (enforce_slot now ttl throttle m).2 = true := by
  refine ⟨rfl, ?_, ?_⟩
  · simp only [enforce_slot, hd, hr, if_true, if_false, Bool.false_eq_true, should_alert]
    rcases hts : m.last_alert_ts with _ | ts <;>
      by_cases hrsn : m.last_alert_reason = some (restart_reason_text now ttl m) <;>
        simp [hts, hrsn]
  · simp [enforce_slot, hd, hr]

/-- Witness for `enforce_slot_alert_iff`: first-ever alert for a slot with
a stale heartbeat. -/
theorem enforce_slot_alert_iff_witness :
    (enforce_slot 1000 30 300 ⟨false, some 900, false, false, none, none⟩).1 = true ∧
    (enforce_slot 1000 30 300 ⟨false, some 900, false, false, none, none⟩).2 = true := by
  have h := enforce_slot_alert_iff 1000 30 300 ⟨false, some 900, false, false, none, none⟩
    rfl (by decide)
  exact ⟨h.2.1.mpr (Or.inr (Or.inl rfl)), h.2.2⟩

/-- Updating a key then reading it back yields the new value. -/
theorem assocGet_set_self {α : Type} (m : List (String × α)) (k : String) (v : α) :
    assocGet (assocSet m k v) k = some v := by
  induction m with
  | nil => simp [assocGet, assocSet]
  | cons kv rest ih =>
    by_cases h : kv.1 = k
    · simp [assocSet, assocGet, h]
    · simp only [assocSet, assocGet]
      rw [if_neg (by simpa using h)]
      simpa [assocGet, List.find?, (by simpa using h : (kv.1 == k) = false)] using ih

/-- Updating one key leaves every other key's binding unchanged. -/
theorem assocGet_set_ne {α : Type} (m : List (String × α)) (k k' : String) (v : α)
    (h : k' ≠ k) : assocGet (assocSet m k v) k' = assocGet m k' := by
  induction m with
  | nil => simp [assocGet, assocSet, List.find?, (by simpa using (Ne.symm h) : (k == k') = false)]
  | cons kv rest ih =>
    by_cases hk : kv.1 = k
    · simp [assocSet, assocGet, List.find?, hk, (by simpa using (Ne.symm h) : (k == k') = false)]
    · simp only [assocSet]
      rw [if_neg (by simpa using hk)]
      by_cases hk' : kv.1 = k'
      · simp [assocGet, List.find?, hk']
      · simp only [assocGet, List.find?] at *
        rw [(by simpa using hk' : (kv.1 == k') = false)] at *
        simpa using ih

/-- A record whose lead is neither terminal nor held reaches the delivery
part of `process_record`. -/
theorem process_record_to_deliver (cfg : DispatcherConfig) (record : QRecord)
    (cs : ContactState) (rs : RateState) (now : Nat) (netOk : Bool) (l : String)
    (hl : leadOpt record.lead_id = some l)
    (hst : ∀ st, assocGet cs l = some st →
      st.status ≠ "sent" ∧ st.status ≠ "skipped" ∧ st.status ≠ "blocked" ∧ st.status ≠ "held") :
    process_record cfg record cs rs now netOk =
      process_record_deliver cfg record cs rs now netOk l (slotKey record) := by
  unfold process_record
  rw [hl]
  dsimp only
  rcases h : assocGet cs l with _ | st
  · rfl
  · obtain ⟨h1, h2, h3, h4⟩ := hst st h
    simp [h1, h2, h3, h4]

/-- On the whatsapp channel with WAHA configured and a contact present,
delivery reduces to the WAHA attempt. -/
theorem deliver_waha (cfg : DispatcherConfig) (record : QRecord)
    (cs : ContactState) (rs : RateState) (now : Nat) (netOk : Bool) (l s : String)
    (hdry : cfg.dry_run = false) (hch : cfg.channel = "whatsapp")
    (hbase : optTruthy cfg.waha_base_url = true) (hsess : optTruthy cfg.waha_session = true)
    (hc : (extract_contact record.payload cfg.channel).isSome = true) :
    process_record_deliver cfg record cs rs now netOk l s =
      if send_whatsapp_waha cfg ((extract_contact record.payload cfg.channel).getD "")
          record netOk = true then
        ⟨true, true, assocSet cs l ⟨"sent", now, none⟩, mark_sent rs s now,
          [⟨"sent", some "waha", now, .obj record⟩]⟩
      else
        ⟨false, true, assocSet cs l ⟨"failed", now, some "waha_error"⟩, rs,
          [⟨"failed", some "waha_error", now, .obj record⟩]⟩ := by
  unfold process_record_deliver
  rw [if_neg (by simp [hdry])]
  rw [if_neg (by rintro ⟨_, hnone⟩; rw [hnone] at hc; simp at hc)]
  rw [if_pos ⟨hch, hbase, hsess⟩]

/-- C10: on the whatsapp channel with a WAHA base URL and session
configured, `process_record` never consults the rate gate — its result does
not depend on `rate_per_minute` at all, and a successful WAHA send is
journaled `sent` even in a state where `can_send` would refuse — while
`mark_sent` still increments the slot's window counter on success. -/
theorem whatsapp_waha_skips_rate_gate (cfg : DispatcherConfig) (record : QRecord)
    (cs : ContactState) (rs : RateState) (now : Nat) (netOk : Bool) (l : String) (r1 r2 : Int)
    (hch : cfg.channel = "whatsapp")
    (hbase : optTruthy cfg.waha_base_url = true)
    (hsess : optTruthy cfg.waha_session = true)
    (hdry : cfg.dry_run = false)
    (hl : leadOpt record.lead_id = some l)
    (hst : ∀ st, assocGet cs l = some st →
      st.status ≠ "sent" ∧ st.status ≠ "skipped" ∧ st.status ≠ "blocked" ∧ st.status ≠ "held")
    (hc : (extract_contact record.payload cfg.channel).isSome = true) :
    (process_record { cfg with rate_per_minute := r1 } record cs rs now netOk =
      process_record { cfg with rate_per_minute := r2 } record cs rs now netOk) ∧
    (send_whatsapp_waha cfg ((extract_contact record.payload cfg.channel).getD "")
        record netOk = true →
      process_record cfg record cs rs now netOk =
        ⟨true, true, assocSet cs l ⟨"sent", now, none⟩,
          mark_sent rs (slotKey record) now,
          [⟨"sent", some "waha", now, .obj record⟩]⟩) ∧
    (∀ w n, 0 < cfg.rate_per_minute → assocGet rs (slotKey record) = some ⟨w, n⟩ →
      now < w + 60 → cfg.rate_per_minute ≤ (n : Int) →
      (can_send rs (slotKey record) cfg.rate_per_minute now).1 = false) ∧
    (∀ s w n, assocGet rs s = some ⟨w, n⟩ → now < w + 60 →
      assocGet (mark_sent rs s now) s = some ⟨w, n + 1⟩) := by
  refine ⟨?_, ?_, ?_, ?_⟩
  · rw [process_record_to_deliver _ _ _ _ _ _ _ hl hst,
        process_record_to_deliver _ _ _ _ _ _ _ hl hst,
        deliver_waha { cfg with rate_per_minute := r1 } record cs rs now netOk l
          (slotKey record) hdry hch hbase hsess hc,
        deliver_waha { cfg with rate_per_minute := r2 } record cs rs now netOk l
          (slotKey record) hdry hch hbase hsess hc]
    rfl
  · intro hsend
    rw [process_record_to_deliver _ _ _ _ _ _ _ hl hst,
        deliver_waha _ _ _ _ _ _ _ _ hdry hch hbase hsess hc,
        if_pos hsend]
  · intro w n hpos hget hfresh hcap
    unfold can_send
    rw [if_neg (show ¬cfg.rate_per_minute ≤ 0 by omega)]
    dsimp only
    rw [hget]
    dsimp only [Option.getD]
    rw [if_neg (show ¬(w + 60 ≤ now) by omega)]
    dsimp only
    rw [if_pos (show cfg.rate_per_minute ≤ ((n : Nat) : Int) by exact_mod_cast hcap)]
  · intro s w n hget hfresh
    unfold mark_sent
    dsimp only
    rw [hget]
    dsimp only [Option.getD]
    rw [if_neg (show ¬(w + 60 ≤ now) by omega)]
    exact assocGet_set_self _ _ _

/-- The WAHA dispatcher configuration of the C10 witness. -/
def wahaCfgW : DispatcherConfig :=
  { channel := "whatsapp", rate_per_minute := 1, dry_run := false, dry_run_advance := false,
    webhook_url := none, webhook_secret := none,
    waha_base_url := some "http://waha:3000", waha_session := some "slot-s1" }

/-- The queue record of the C10 witness. -/
def wahaRecW : QRecord :=
  ⟨some "L1", some "s1", [("phone", "+911234567890")]⟩

/-- Witness for `whatsapp_waha_skips_rate_gate`: the slot's window already
holds 5 sends against a limit of 1 (`can_send` refuses), yet the WAHA
delivery is attempted, succeeds, and increments the counter. -/
theorem whatsapp_waha_skips_rate_gate_witness :
    (can_send [("s1", ⟨1000, 5⟩)] (slotKey wahaRecW) wahaCfgW.rate_per_minute 1000).1 = false ∧
    process_record wahaCfgW wahaRecW [] [("s1", ⟨1000, 5⟩)] 1000 true =
      ⟨true, true, assocSet [] "L1" ⟨"sent", 1000, none⟩,
        mark_sent [("s1", ⟨1000, 5⟩)] (slotKey wahaRecW) 1000,
        [⟨"sent", some "waha", 1000, .obj wahaRecW⟩]⟩ := by
  have h := whatsapp_waha_skips_rate_gate wahaCfgW wahaRecW [] [("s1", ⟨1000, 5⟩)] 1000 true
    "L1" 1 2 rfl (by decide) (by decide) rfl rfl
    (fun st hst => Option.noConfusion hst) (by decide)
  exact ⟨h.2.2.1 1000 5 (by decide) rfl (by decide) (by decide), h.2.1 (by decide)⟩

/-- A candidate whose signature was already seen this run is skipped. -/
theorem worker_step_dup_sig (cfg : WorkerCfg) (policy : QualityPolicy) (st : WState)
    (c : Candidate) (o : ScrapeOracle)
    (h : wsSig c ≠ "" ∧ wsSig c ∈ st.seen_signatures) :
    worker_step cfg policy st c o = (st, false) := by
  unfold worker_step
  rw [if_pos h]

/-- A candidate whose lead id was already seen this run is skipped. -/
theorem worker_step_dup_lead (cfg : WorkerCfg) (policy : QualityPolicy) (st : WState)
    (c : Candidate) (o : ScrapeOracle)
    (hs : ¬(wsSig c ≠ "" ∧ wsSig c ∈ st.seen_signatures))
    (h : wsLeadId c o ∈ st.seen_leads) :
    worker_step cfg policy st c o = (st, false) := by
  unfold worker_step
  rw [if_neg hs, if_pos h]

/-- A candidate that passes dedup but trips some filter gate is skipped
with the loop state unchanged. -/
theorem worker_step_rejected (cfg : WorkerCfg) (policy : QualityPolicy) (st : WState)
    (c : Candidate) (o : ScrapeOracle)
    (hsig : ¬(wsSig c ≠ "" ∧ wsSig c ∈ st.seen_signatures))
    (hid : wsLeadId c o ∉ st.seen_leads)
    (hrej : wsFilterReject cfg policy c o = true) :
    worker_step cfg policy st c o = (st, false) := by
  unfold worker_step
  rw [if_neg hsig, if_neg hid]
  by_cases h1 : wsAgeReject policy c = true
  · rw [if_pos h1]
  rw [if_neg h1]
  by_cases h2 : wsMemberReject policy c = true
  · rw [if_pos h2]
  rw [if_neg h2]
  by_cases h3 : (!cfg.blocked_countries.isEmpty &&
      text_contains_any (wsCountryBlob c) cfg.blocked_countries) = true
  · rw [if_pos h3]
  rw [if_neg h3]
  by_cases h4 : (!cfg.allowed_countries.isEmpty &&
      !text_contains_any (wsCountryBlob c) cfg.allowed_countries) = true
  · rw [if_pos h4]
  rw [if_neg h4]
  by_cases h5 : (!cfg.keywords.isEmpty &&
      !text_contains_any (wsTextForKeywords c) cfg.keywords) = true
  · rw [if_pos h5]
  rw [if_neg h5]
  by_cases h6 : (!cfg.keywords_exclude.isEmpty &&
      text_contains_any (wsTextForKeywords c) cfg.keywords_exclude) = true
  · rw [if_pos h6]
  rw [if_neg h6]
  by_cases h7 : (!cfg.required_methods.isEmpty &&
      !requiredOk cfg.required_methods
        (optTruthy o.email || (wsAvail c).contains "email")
        (optTruthy o.phone || (wsAvail c).contains "phone")
        ((wsAvail c).contains "whatsapp")) = true
  · rw [if_pos h7]
  exfalso
  rw [wsFilterReject, Bool.eq_false_iff.mpr h1, Bool.eq_false_iff.mpr h2,
      Bool.eq_false_iff.mpr h3, Bool.eq_false_iff.mpr h4, Bool.eq_false_iff.mpr h5,
      Bool.eq_false_iff.mpr h6, Bool.eq_false_iff.mpr h7] at hrej
  simp at hrej

/-- A candidate that passes dedup and every filter gate takes the kept
path: append, cap check, then (conditionally) the verified emit. -/
theorem worker_step_kept (cfg : WorkerCfg) (policy : QualityPolicy) (st : WState)
    (c : Candidate) (o : ScrapeOracle)
    (hsig : ¬(wsSig c ≠ "" ∧ wsSig c ∈ st.seen_signatures))
    (hid : wsLeadId c o ∉ st.seen_leads)
    (hkeep : wsFilterReject cfg policy c o = false) :
    worker_step cfg policy st c o =
      (if cfg.max_per_cycle ≤ (wsKeepState cfg policy st c o).leads_kept then
        (wsKeepState cfg policy st c o, true)
      else if wsVerified cfg st c o = true then
        ({ wsKeepState cfg policy st c o with
            emitted := (wsKeepState cfg policy st c o).emitted ++ [⟨cfg.slot_id, wsLeadId c o⟩] },
          false)
      else (wsKeepState cfg policy st c o, false)) := by
  simp only [wsFilterReject, Bool.or_eq_false_iff] at hkeep
  obtain ⟨⟨⟨⟨⟨⟨k1, k2⟩, k3⟩, k4⟩, k5⟩, k6⟩, k7⟩ := hkeep
  unfold worker_step
  rw [if_neg hsig, if_neg hid,
      if_neg (by simp only [k1]; decide), if_neg (by simp only [k2]; decide),
      if_neg (by simp only [k3]; decide), if_neg (by simp only [k4]; decide),
      if_neg (by simp only [k5]; decide), if_neg (by simp only [k6]; decide),
      if_neg (by simp only [k7]; decide)]

/-- The worker cycle configuration of the C5 counterexample. -/
def keywordCfgW : WorkerCfg :=
  { slot_id := "s1", run_id := "r1", quality_level := 90, auto_buy := true, dry_run := false,
    max_per_cycle := 10, max_clicks := 1,
    allowed_countries := [], blocked_countries := [], keywords := ["valve"],
    keywords_exclude := [], required_methods := [] }

/-- The candidate of the C5 counterexample: fresh, but its text misses the
required keyword. -/
def keywordCandW : Candidate :=
  { lead_id_raw := "LX", title := some "Pump impeller", country := some "India",
    time_text := none, member_since_text := none, category_text := none,
    text := "Pump impeller required", availability := [] }

/-- A quiet oracle for the C5 counterexample. -/
def keywordOrcW : ScrapeOracle :=
  { email := none, phone := none, fresh_id := "u1", clickOk := false,
    detail_email := none, detail_phone := none, inline_verified := false,
    consumed_verified := false, consumed_email := none, consumed_phone := none }

/-- C5 counterexample: a fresh candidate that fails the keyword gate is
dropped with the loop state (including `leads.jsonl`) unchanged — no record
carrying any reject reason is appended (`LeadRecord` has no such field),
and nothing is clicked or emitted. -/
theorem worker_reject_appends_nothing :
    wsFilterReject keywordCfgW (quality_mapping 90) keywordCandW keywordOrcW = true ∧
    worker_step keywordCfgW (quality_mapping 90) ⟨[], [], [], 0, 0, [], []⟩
      keywordCandW keywordOrcW = (⟨[], [], [], 0, 0, [], []⟩, false) := by
  constructor
  · decide
  · decide

/-- C5 amended: a candidate that passes dedup but is rejected by a filter
rule (policy age, membership, country gates, keyword gates, or required
contact methods) is silently skipped: nothing is appended to leads.jsonl,
nothing is clicked, nothing is verified or emitted; and in general a step
either changes nothing or appends exactly the one kept record, so only
kept leads are eligible for click and verification. -/
theorem worker_filter_reject_silent (cfg : WorkerCfg) (policy : QualityPolicy) (st : WState)
    (c : Candidate) (o : ScrapeOracle)
    (hsig : ¬(wsSig c ≠ "" ∧ wsSig c ∈ st.seen_signatures))
    (hid : wsLeadId c o ∉ st.seen_leads)
    (hrej : wsFilterReject cfg policy c o = true) :
    worker_step cfg policy st c o = (st, false) ∧
    (∀ (cfg2 : WorkerCfg) (policy2 : QualityPolicy) (st2 : WState) (c2 : Candidate)
        (o2 : ScrapeOracle),
      ((worker_step cfg2 policy2 st2 c2 o2).1.appended = st2.appended ∧
        (worker_step cfg2 policy2 st2 c2 o2).1.clicks_sent = st2.clicks_sent ∧
        (worker_step cfg2 policy2 st2 c2 o2).1.emitted = st2.emitted) ∨
      (worker_step cfg2 policy2 st2 c2 o2).1.appended =
        st2.appended ++ [wsRecord cfg2 policy2 st2 c2 o2]) := by
  refine ⟨worker_step_rejected cfg policy st c o hsig hid hrej, ?_⟩
  intro cfg2 policy2 st2 c2 o2
  by_cases hs : wsSig c2 ≠ "" ∧ wsSig c2 ∈ st2.seen_signatures
  · left
    rw [worker_step_dup_sig cfg2 policy2 st2 c2 o2 hs]
    exact ⟨rfl, rfl, rfl⟩
  by_cases hl : wsLeadId c2 o2 ∈ st2.seen_leads
  · left
    rw [worker_step_dup_lead cfg2 policy2 st2 c2 o2 hs hl]
    exact ⟨rfl, rfl, rfl⟩
  by_cases hrej2 : wsFilterReject cfg2 policy2 c2 o2 = true
  · left
    rw [worker_step_rejected cfg2 policy2 st2 c2 o2 hs hl hrej2]
    exact ⟨rfl, rfl, rfl⟩
  · right
    rw [worker_step_kept cfg2 policy2 st2 c2 o2 hs hl (Bool.eq_false_iff.mpr hrej2)]
    by_cases hcap : cfg2.max_per_cycle ≤ (wsKeepState cfg2 policy2 st2 c2 o2).leads_kept
    · rw [if_pos hcap]
      rfl
    · rw [if_neg hcap]
      by_cases hv : wsVerified cfg2 st2 c2 o2 = true
      · rw [if_pos hv]
        rfl
      · rw [if_neg hv]
        rfl

/-- Witness for `worker_filter_reject_silent` at the keyword-gate
counterexample inputs. -/
theorem worker_filter_reject_silent_witness :
    worker_step keywordCfgW (quality_mapping 90) ⟨[], [], [], 0, 0, [], []⟩
      keywordCandW keywordOrcW = (⟨[], [], [], 0, 0, [], []⟩, false) :=
  (worker_filter_reject_silent keywordCfgW (quality_mapping 90) ⟨[], [], [], 0, 0, [], []⟩
    keywordCandW keywordOrcW (by decide) (by decide) (by decide)).1



/-- The worker cycle configuration of the C6 counterexample: a per-cycle
cap of one lead. -/
def capCfgW : WorkerCfg :=
  { slot_id := "s1", run_id := "r1", quality_level := 0, auto_buy := true, dry_run := false,
    max_per_cycle := 1, max_clicks := 1,
    allowed_countries := [], blocked_countries := [], keywords := [],
    keywords_exclude := [], required_methods := [] }

/-- The candidate of the C6 counterexample: passes every gate. -/
def capCandW : Candidate :=
  { lead_id_raw := "LY", title := some "Brass fittings", country := some "India",
    time_text := none, member_since_text := none, category_text := none,
    text := "Brass fittings enquiry", availability := ["phone"] }

/-- The oracle of the C6 counterexample: the click succeeds and inline
verification confirms. -/
def capOrcW : ScrapeOracle :=
  { email := none, phone := some "+911234567890", fresh_id := "u2", clickOk := true,
    detail_email := none, detail_phone := none, inline_verified := true,
    consumed_verified := false, consumed_email := none, consumed_phone := none }

/-- C6 counterexample: the verified lead fills the per-cycle cap, so the
loop `break`s after appending the record with `verified = true` but before
`emit_verified` — zero POSTs are attempted for it. -/
theorem worker_verified_cap_no_emit :
    ((worker_step capCfgW (quality_mapping 0) ⟨[], [], [], 0, 0, [], []⟩ capCandW capOrcW).1.appended.map
        fun r => r.verified) = [true] ∧
    (worker_step capCfgW (quality_mapping 0) ⟨[], [], [], 0, 0, [], []⟩ capCandW capOrcW).2 = true ∧
    (worker_step capCfgW (quality_mapping 0) ⟨[], [], [], 0, 0, [], []⟩ capCandW capOrcW).1.emitted = [] := by
  refine ⟨?_, ?_, ?_⟩ <;> decide

/-- C6 amended: for every kept lead the worker appends exactly one record;
when that record is verified and does not fill the per-cycle cap, exactly
one VerifiedEvent POST is attempted for that lead in the same cycle (the
POST itself is fire-and-forget: `emit_verified` swallows every exception,
so its outcome cannot influence the cycle); when the verified record fills
the cap, the loop breaks first and no POST is attempted. -/
theorem worker_verified_emit_unless_cap (cfg : WorkerCfg) (policy : QualityPolicy) (st : WState)
    (c : Candidate) (o : ScrapeOracle)
    (hsig : ¬(wsSig c ≠ "" ∧ wsSig c ∈ st.seen_signatures))
    (hid : wsLeadId c o ∉ st.seen_leads)
    (hkeep : wsFilterReject cfg policy c o = false) :
    (worker_step cfg policy st c o).1.appended = st.appended ++ [wsRecord cfg policy st c o] ∧
    ((worker_step cfg policy st c o).2 = true ↔ cfg.max_per_cycle ≤ st.leads_kept + 1) ∧
    ((worker_step cfg policy st c o).1.emitted =
      if wsVerified cfg st c o = true ∧ ¬(cfg.max_per_cycle ≤ st.leads_kept + 1)
      then st.emitted ++ [⟨cfg.slot_id, wsLeadId c o⟩] else st.emitted) ∧
    (wsRecord cfg policy st c o).verified = wsVerified cfg st c o ∧
    (wsRecord cfg policy st c o).lead_id = wsLeadId c o := by
  rw [worker_step_kept cfg policy st c o hsig hid hkeep]
  have hk : (wsKeepState cfg policy st c o).leads_kept = st.leads_kept + 1 := rfl
  by_cases hcap : cfg.max_per_cycle ≤ st.leads_kept + 1
  · rw [if_pos (by rw [hk]; exact hcap)]
    refine ⟨rfl, ?_, ?_, rfl, rfl⟩
    · simp [hcap]
    · rw [if_neg (by simp [hcap])]
      rfl
  · rw [if_neg (by rw [hk]; exact hcap)]
    by_cases hv : wsVerified cfg st c o = true
    · rw [if_pos hv]
      refine ⟨rfl, ?_, ?_, rfl, rfl⟩
      · simp [hcap]
      · rw [if_pos ⟨hv, hcap⟩]
        rfl
    · rw [if_neg hv]
      refine ⟨rfl, ?_, ?_, rfl, rfl⟩
      · simp [hcap]
      · rw [if_neg (by rintro ⟨h, _⟩; exact hv h)]
        rfl

/-- Witness for `worker_verified_emit_unless_cap`: with a cap of 10 the
verified lead is both appended and emitted. -/
theorem worker_verified_emit_unless_cap_witness :
    (worker_step { capCfgW with max_per_cycle := 10 } (quality_mapping 0)
        ⟨[], [], [], 0, 0, [], []⟩ capCandW capOrcW).1.emitted =
      [⟨"s1", "LY"⟩] := by
  have h := worker_verified_emit_unless_cap { capCfgW with max_per_cycle := 10 }
    (quality_mapping 0) ⟨[], [], [], 0, 0, [], []⟩ capCandW capOrcW
    (by decide) (by decide) (by decide)
  rw [h.2.2.1, if_pos ⟨by decide, by decide⟩]
  decide


/-- When `can_send` permits, it leaves the rate map untouched (Python only
writes it back on the refusing branch). -/
theorem can_send_true_snd (rs : RateState) (s : String) (rpm : Int) (now : Nat)
    (h : (can_send rs s rpm now).1 = true) : (can_send rs s rpm now).2 = rs := by
  unfold can_send at h ⊢
  by_cases h0 : rpm ≤ 0
  · rw [if_pos h0]
  · rw [if_neg h0] at h ⊢
    dsimp only at h ⊢
    by_cases hw : ((assocGet rs s).getD ⟨now, 0⟩).window_start + 60 ≤ now
    · rw [if_pos hw] at h ⊢
      by_cases hc : rpm ≤ (((⟨now, 0⟩ : RateSlot).sent : Nat) : Int)
      · rw [if_pos hc] at h
        simp at h
      · rw [if_neg hc]
    · rw [if_neg hw] at h ⊢
      by_cases hc : rpm ≤ ((((assocGet rs s).getD ⟨now, 0⟩).sent : Nat) : Int)
      · rw [if_pos hc] at h
        simp at h
      · rw [if_neg hc]

/-- On the generic webhook path with the rate gate open, delivery reduces
to the HTTP response: 2xx marks sent, otherwise failed. -/
theorem deliver_webhook (cfg : DispatcherConfig) (record : QRecord)
    (cs : ContactState) (rs : RateState) (now : Nat) (netOk : Bool) (l s : String)
    (hdry : cfg.dry_run = false)
    (hcontact : ¬(channelRequiresContact cfg.channel = true ∧
      extract_contact record.payload cfg.channel = none))
    (hwaha : ¬(cfg.channel = "whatsapp" ∧ optTruthy cfg.waha_base_url = true ∧
      optTruthy cfg.waha_session = true))
    (hurl : optTruthy cfg.webhook_url = true)
    (hcan : (can_send rs s cfg.rate_per_minute now).1 = true) :
    process_record_deliver cfg record cs rs now netOk l s =
      if netOk = true then
        ⟨true, true, assocSet cs l ⟨"sent", now, none⟩, mark_sent rs s now,
          [⟨"sent", none, now, .obj record⟩]⟩
      else
        ⟨false, true, assocSet cs l ⟨"failed", now, some "webhook_error"⟩, rs,
          [⟨"failed", some "webhook_error", now, .obj record⟩]⟩ := by
  unfold process_record_deliver
  rw [if_neg (by simp [hdry]), if_neg hcontact, if_neg hwaha,
      if_neg (by simp [hurl])]
  dsimp only
  rw [if_neg (by simp [hcan]), can_send_true_snd rs s cfg.rate_per_minute now hcan]

/-- The email-channel webhook configuration of the C1 / C2 material. -/
def webhookCfgW : DispatcherConfig :=
  { channel := "email", rate_per_minute := 6, dry_run := false, dry_run_advance := false,
    webhook_url := some "https://hooks.example/engyne", webhook_secret := none }

/-- A deliverable email record for the C1 / C2 material. -/
def webhookRecW : QRecord :=
  ⟨some "L1", some "s1", [("email", "lead@example.com")]⟩

/-- C1 counterexample: a webhook delivery answered non-2xx marks the lead
failed and journals a failed entry — but the dispatcher does NOT advance
(neither the in-memory offset nor the offset file moves past the record),
and on a later pass the record whose contact_state is failed IS
re-attempted (here it is delivered). -/
theorem dispatcher_failed_keeps_offset_and_retries :
    (process_record webhookCfgW webhookRecW [] [] 1000 false).advance = false ∧
    (process_record webhookCfgW webhookRecW [] [] 1000 false).contact =
      [("L1", ⟨"failed", 1000, some "webhook_error"⟩)] ∧
    (process_record webhookCfgW webhookRecW [] [] 1000 false).journal =
      [⟨"failed", some "webhook_error", 1000, .obj webhookRecW⟩] ∧
    (process_record webhookCfgW webhookRecW
        [("L1", ⟨"failed", 1000, some "webhook_error"⟩)] [] 1000 true).journal =
      [⟨"sent", none, 1000, .obj webhookRecW⟩] ∧
    (process_queue webhookCfgW [.parsed webhookRecW false] 1000 [] [] 0).fileOffset = 0 ∧
    (process_queue webhookCfgW [.parsed webhookRecW false] 1000 [] [] 0).offset = 0 ∧
    (process_queue webhookCfgW [.parsed webhookRecW true] 1000
        (process_queue webhookCfgW [.parsed webhookRecW false] 1000 [] [] 0).savedContact
        (process_queue webhookCfgW [.parsed webhookRecW false] 1000 [] [] 0).savedRate
        (process_queue webhookCfgW [.parsed webhookRecW false] 1000 [] [] 0).fileOffset).journal =
      [⟨"sent", none, 1000, .obj webhookRecW⟩] := by
  refine ⟨?_, ?_, ?_, ?_, ?_, ?_, ?_⟩ <;> decide

/-- C1 amended: for every queue record whose webhook delivery returns a
non-2xx status, `process_record` marks the lead's contact_state failed with
detail webhook_error and journals a failed entry, but returns
advance = False, so the pass stops at the record and the offset is NOT
advanced past it; since "failed" is in neither terminal-check set, such a
record IS re-attempted by every later pass (and is delivered if the
webhook then answers 2xx). A transport-level exception instead propagates
and kills the dispatcher process before any marking. -/
theorem dispatcher_webhook_failure_no_advance (cfg : DispatcherConfig) (record : QRecord)
    (cs : ContactState) (rs : RateState) (now : Nat) (l : String)
    (hl : leadOpt record.lead_id = some l)
    (hst : ∀ st, assocGet cs l = some st →
      st.status ≠ "sent" ∧ st.status ≠ "skipped" ∧ st.status ≠ "blocked" ∧ st.status ≠ "held")
    (hdry : cfg.dry_run = false)
    (hcontact : ¬(channelRequiresContact cfg.channel = true ∧
      extract_contact record.payload cfg.channel = none))
    (hwaha : ¬(cfg.channel = "whatsapp" ∧ optTruthy cfg.waha_base_url = true ∧
      optTruthy cfg.waha_session = true))
    (hurl : optTruthy cfg.webhook_url = true)
    (hcan : (can_send rs (slotKey record) cfg.rate_per_minute now).1 = true) :
    (process_record cfg record cs rs now false =
      ⟨false, true, assocSet cs l ⟨"failed", now, some "webhook_error"⟩, rs,
        [⟨"failed", some "webhook_error", now, .obj record⟩]⟩) ∧
    (∀ u d, process_record cfg record
        (assocSet cs l ⟨"failed", u, some d⟩) rs now true =
      ⟨true, true, assocSet (assocSet cs l ⟨"failed", u, some d⟩) l ⟨"sent", now, none⟩,
        mark_sent rs (slotKey record) now, [⟨"sent", none, now, .obj record⟩]⟩) := by
  constructor
  · rw [process_record_to_deliver _ _ _ _ _ _ _ hl hst,
        deliver_webhook _ _ _ _ _ _ _ _ hdry hcontact hwaha hurl hcan]
    simp
  · intro u d
    have hst2 : ∀ st, assocGet (assocSet cs l ⟨"failed", u, some d⟩) l = some st →
        st.status ≠ "sent" ∧ st.status ≠ "skipped" ∧ st.status ≠ "blocked" ∧
          st.status ≠ "held" := by
      intro st hget
      rw [assocGet_set_self] at hget
      cases hget
      exact ⟨by simp, by simp, by simp, by simp⟩
    rw [process_record_to_deliver _ _ _ _ _ _ _ hl hst2,
        deliver_webhook _ _ _ _ _ _ _ _ hdry hcontact hwaha hurl hcan]
    simp

/-- The missing-contact branch of delivery. -/
theorem deliver_missing_contact (cfg : DispatcherConfig) (record : QRecord)
    (cs : ContactState) (rs : RateState) (now : Nat) (netOk : Bool) (l s : String)
    (hdry : cfg.dry_run = false)
    (hreq : channelRequiresContact cfg.channel = true)
    (hnone : extract_contact record.payload cfg.channel = none) :
    process_record_deliver cfg record cs rs now netOk l s =
      ⟨false, true, assocSet cs l ⟨"blocked", now, some "missing_contact"⟩, rs,
        [⟨"blocked", some "missing_contact", now, .obj record⟩]⟩ := by
  unfold process_record_deliver
  rw [if_neg (by simp [hdry]), if_pos ⟨hreq, hnone⟩]

/-- The missing-webhook branch of delivery. -/
theorem deliver_missing_webhook (cfg : DispatcherConfig) (record : QRecord)
    (cs : ContactState) (rs : RateState) (now : Nat) (netOk : Bool) (l s : String)
    (hdry : cfg.dry_run = false)
    (hcontact : ¬(channelRequiresContact cfg.channel = true ∧
      extract_contact record.payload cfg.channel = none))
    (hwaha : ¬(cfg.channel = "whatsapp" ∧ optTruthy cfg.waha_base_url = true ∧
      optTruthy cfg.waha_session = true))
    (hurl : optTruthy cfg.webhook_url = false) :
    process_record_deliver cfg record cs rs now netOk l s =
      ⟨false, true, assocSet cs l ⟨"blocked", now, some "missing_webhook"⟩, rs,
        [⟨"blocked", some "missing_webhook", now, .obj record⟩]⟩ := by
  unfold process_record_deliver
  rw [if_neg (by simp [hdry]), if_neg hcontact, if_neg hwaha, if_pos (by simp [hurl])]

/-- A record whose lead is blocked or held returns (False, False): the pass
stops with nothing changed. -/
theorem process_record_blocked_halts (cfg : DispatcherConfig) (record : QRecord)
    (cs : ContactState) (rs : RateState) (now : Nat) (netOk : Bool) (l : String)
    (hl : leadOpt record.lead_id = some l)
    (st0 : LeadState) (hget : assocGet cs l = some st0)
    (hblocked : st0.status = "blocked" ∨ st0.status = "held") :
    process_record cfg record cs rs now netOk = ⟨false, false, cs, rs, []⟩ := by
  unfold process_record
  rw [hl]
  dsimp only
  rw [hget]
  dsimp only
  have hnt : ¬(st0.status = "sent" ∨ st0.status = "skipped") := by
    rcases hblocked with h | h <;> rw [h] <;> rintro (hc | hc) <;> exact absurd hc (by decide)
  rw [if_neg hnt, if_pos hblocked]

/-- A record with no contact in its payload, for the C2 counterexample. -/
def blockedRecW : QRecord := ⟨some "L2", some "s1", []⟩

/-- C2 counterexample: both blocked outcomes (missing_contact on the email
channel with an empty payload; missing_webhook with no webhook URL) mark
and journal blocked but return advance = False — the offset file does not
move past the record. -/
theorem dispatcher_blocked_keeps_offset :
    (process_record webhookCfgW blockedRecW [] [] 1000 true).advance = false ∧
    (process_record webhookCfgW blockedRecW [] [] 1000 true).contact =
      [("L2", ⟨"blocked", 1000, some "missing_contact"⟩)] ∧
    (process_record { webhookCfgW with webhook_url := none } webhookRecW [] [] 1000 true).advance
      = false ∧
    (process_record { webhookCfgW with webhook_url := none } webhookRecW [] [] 1000 true).contact
      = [("L1", ⟨"blocked", 1000, some "missing_webhook"⟩)] ∧
    (process_queue webhookCfgW [.parsed blockedRecW true] 1000 [] [] 0).fileOffset = 0 ∧
    (process_queue webhookCfgW [.parsed blockedRecW true] 1000 [] [] 0).offset = 0 := by
  refine ⟨?_, ?_, ?_, ?_, ?_, ?_⟩ <;> decide

/-- C2 amended: when the channel requires a contact and none can be
extracted, the lead is marked blocked(missing_contact) and journaled; when
no webhook URL (and no channel-native transport) is configured, it is
marked blocked(missing_webhook) and journaled; in both cases
`process_record` returns advance = False, so the offset is NOT advanced
past the record — the pass stops there, and on later passes the blocked
record halts processing immediately with nothing changed. -/
theorem dispatcher_blocked_no_advance (cfg : DispatcherConfig) (record : QRecord)
    (cs : ContactState) (rs : RateState) (now : Nat) (netOk : Bool) (l : String)
    (hl : leadOpt record.lead_id = some l)
    (hst : ∀ st, assocGet cs l = some st →
      st.status ≠ "sent" ∧ st.status ≠ "skipped" ∧ st.status ≠ "blocked" ∧ st.status ≠ "held")
    (hdry : cfg.dry_run = false) :
    (channelRequiresContact cfg.channel = true →
      extract_contact record.payload cfg.channel = none →
      process_record cfg record cs rs now netOk =
        ⟨false, true, assocSet cs l ⟨"blocked", now, some "missing_contact"⟩, rs,
          [⟨"blocked", some "missing_contact", now, .obj record⟩]⟩) ∧
    (¬(channelRequiresContact cfg.channel = true ∧
        extract_contact record.payload cfg.channel = none) →
      ¬(cfg.channel = "whatsapp" ∧ optTruthy cfg.waha_base_url = true ∧
        optTruthy cfg.waha_session = true) →
      optTruthy cfg.webhook_url = false →
      process_record cfg record cs rs now netOk =
        ⟨false, true, assocSet cs l ⟨"blocked", now, some "missing_webhook"⟩, rs,
          [⟨"blocked", some "missing_webhook", now, .obj record⟩]⟩) ∧
    (∀ u d cs2 rs2 now2 nk2, process_record cfg record
        (assocSet cs2 l ⟨"blocked", u, d⟩) rs2 now2 nk2 =
      ⟨false, false, assocSet cs2 l ⟨"blocked", u, d⟩, rs2, []⟩) := by
  refine ⟨?_, ?_, ?_⟩
  · intro hreq hnone
    rw [process_record_to_deliver _ _ _ _ _ _ _ hl hst,
        deliver_missing_contact _ _ _ _ _ _ _ _ hdry hreq hnone]
  · intro hcontact hwaha hurl
    rw [process_record_to_deliver _ _ _ _ _ _ _ hl hst,
        deliver_missing_webhook _ _ _ _ _ _ _ _ hdry hcontact hwaha hurl]
  · intro u d cs2 rs2 now2 nk2
    exact process_record_blocked_halts cfg record _ rs2 now2 nk2 l hl
      ⟨"blocked", u, d⟩ (assocGet_set_self _ _ _) (Or.inl rfl)

/-- Witness for `dispatcher_webhook_failure_no_advance` at the concrete
email-channel inputs. -/
theorem dispatcher_webhook_failure_no_advance_witness :
    process_record webhookCfgW webhookRecW [] [] 1000 false =
      ⟨false, true, assocSet [] "L1" ⟨"failed", 1000, some "webhook_error"⟩, [],
        [⟨"failed", some "webhook_error", 1000, .obj webhookRecW⟩]⟩ :=
  (dispatcher_webhook_failure_no_advance webhookCfgW webhookRecW [] [] 1000 "L1"
    rfl (fun _ h => Option.noConfusion h) rfl (by decide) (by decide) (by decide)
    (by decide)).1

/-- Witness for `dispatcher_blocked_no_advance` at the concrete inputs. -/
theorem dispatcher_blocked_no_advance_witness :
    process_record webhookCfgW blockedRecW [] [] 1000 true =
      ⟨false, true, assocSet [] "L2" ⟨"blocked", 1000, some "missing_contact"⟩, [],
        [⟨"blocked", some "missing_contact", 1000, .obj blockedRecW⟩]⟩ :=
  (dispatcher_blocked_no_advance webhookCfgW blockedRecW [] [] 1000 true "L2"
    rfl (fun _ h => Option.noConfusion h) rfl).1 (by decide) (by decide)


/-- `sentCount` distributes over journal concatenation. -/
theorem sentCount_append (l : String) (a b : List JEntry) :
    sentCount l (a ++ b) = sentCount l a + sentCount l b := by
  simp [sentCount, List.filter_append]

/-- Arithmetic core of the at-most-once argument: a step that rewrites one
lead's state and journals at most one matching entry keeps the sent-count
bounded by the sent-flag transition. -/
theorem step_bound_set (cs : ContactState) (lead l : String) (v : LeadState)
    (j : List JEntry)
    (hj : sentCount l j = if v.status = "sent" ∧ lead = l then 1 else 0)
    (hpre : leadSentB cs lead = false) :
    sentCount l j + (if leadSentB cs l = true then 1 else 0) ≤
      (if leadSentB (assocSet cs lead v) l = true then 1 else 0) := by
  by_cases hl : lead = l
  · subst hl
    rw [hj]
    have h2 : leadSentB (assocSet cs lead v) lead = (v.status == "sent") := by
      simp [leadSentB, assocGet_set_self]
    rw [h2, hpre]
    by_cases hv : v.status = "sent"
    · simp [hv]
    · simp [hv]
  · rw [hj, if_neg (by rintro ⟨_, h⟩; exact hl h)]
    simp only [leadSentB, assocGet_set_ne _ _ _ _ (fun h => hl h.symm)]
    omega

/-- Each delivery branch journals a `sent` entry for a lead only when it
flips that lead's contact state to sent, and at most once. -/
theorem deliver_sent_step (cfg : DispatcherConfig) (record : QRecord)
    (cs : ContactState) (rs : RateState) (now : Nat) (nk : Bool) (lead s l : String)
    (hlead : leadOpt record.lead_id = some lead)
    (hpre : leadSentB cs lead = false) :
    sentCount l (process_record_deliver cfg record cs rs now nk lead s).journal +
      (if leadSentB cs l = true then 1 else 0) ≤
    (if leadSentB (process_record_deliver cfg record cs rs now nk lead s).contact l = true
      then 1 else 0) := by
  unfold process_record_deliver
  by_cases hdry : cfg.dry_run = true
  · rw [if_pos hdry]
    by_cases hadv : cfg.dry_run_advance = true
    · rw [if_pos hadv]
      exact step_bound_set cs lead l _ _ (by by_cases h : lead = l <;> simp [sentCount, jLead, hlead, h]) hpre
    · rw [if_neg hadv]
      exact step_bound_set cs lead l _ _ (by by_cases h : lead = l <;> simp [sentCount, jLead, hlead, h]) hpre
  rw [if_neg hdry]
  by_cases hmc : channelRequiresContact cfg.channel = true ∧
      extract_contact record.payload cfg.channel = none
  · rw [if_pos hmc]
    exact step_bound_set cs lead l _ _ (by by_cases h : lead = l <;> simp [sentCount, jLead, hlead, h]) hpre
  rw [if_neg hmc]
  by_cases hwa : cfg.channel = "whatsapp" ∧ optTruthy cfg.waha_base_url = true ∧
      optTruthy cfg.waha_session = true
  · rw [if_pos hwa]
    by_cases hsend : send_whatsapp_waha cfg
        ((extract_contact record.payload cfg.channel).getD "") record nk = true
    · rw [if_pos hsend]
      exact step_bound_set cs lead l _ _ (by by_cases h : lead = l <;> simp [sentCount, jLead, hlead, h]) hpre
    · rw [if_neg hsend]
      exact step_bound_set cs lead l _ _ (by by_cases h : lead = l <;> simp [sentCount, jLead, hlead, h]) hpre
  rw [if_neg hwa]
  by_cases hwh : optTruthy cfg.webhook_url = false
  · rw [if_pos hwh]
    exact step_bound_set cs lead l _ _ (by by_cases h : lead = l <;> simp [sentCount, jLead, hlead, h]) hpre
  rw [if_neg hwh]
  dsimp only
  by_cases hcs : (can_send rs s cfg.rate_per_minute now).1 = false
  · rw [if_pos hcs]
    simp [sentCount]
  rw [if_neg hcs]
  by_cases hnet : nk = true
  · rw [if_pos hnet]
    exact step_bound_set cs lead l _ _ (by by_cases h : lead = l <;> simp [sentCount, jLead, hlead, h]) hpre
  · rw [if_neg hnet]
    exact step_bound_set cs lead l _ _ (by by_cases h : lead = l <;> simp [sentCount, jLead, hlead, h]) hpre

/-- The per-record invariant: new `sent` journal entries for a lead are
bounded by that lead's sent-flag transition. -/
theorem process_record_sent_step (cfg : DispatcherConfig) (record : QRecord)
    (cs : ContactState) (rs : RateState) (now : Nat) (nk : Bool) (l : String) :
    sentCount l (process_record cfg record cs rs now nk).journal +
      (if leadSentB cs l = true then 1 else 0) ≤
    (if leadSentB (process_record cfg record cs rs now nk).contact l = true then 1 else 0) := by
  unfold process_record
  rcases hlead : leadOpt record.lead_id with _ | lead
  · dsimp only
    simp [sentCount, jLead, hlead]
  · dsimp only
    rcases hget : assocGet cs lead with _ | st
    · exact deliver_sent_step cfg record cs rs now nk lead (slotKey record) l hlead
        (by simp [leadSentB, hget])
    · dsimp only
      by_cases hterm : st.status = "sent" ∨ st.status = "skipped"
      · rw [if_pos hterm]
        simp [sentCount]
      · rw [if_neg hterm]
        by_cases hheld : st.status = "blocked" ∨ st.status = "held"
        · rw [if_pos hheld]
          simp [sentCount]
        · rw [if_neg hheld]
          refine deliver_sent_step cfg record cs rs now nk lead (slotKey record) l hlead ?_
          simp [leadSentB, hget]
          intro hc
          exact absurd (Or.inl hc) hterm

/-- The per-pass invariant: over any run of the queue loop, the `sent`
entries journaled for a lead are bounded by its sent-flag transition. -/
theorem process_lines_sent_invariant (cfg : DispatcherConfig) (now : Nat)
    (lines : List QLine) (idx : Nat) (st : QueueState) (l : String) :
    sentCount l (process_lines cfg now lines idx st).journal +
      (if leadSentB st.contact l = true then 1 else 0) ≤
    sentCount l st.journal +
      (if leadSentB (process_lines cfg now lines idx st).contact l = true then 1 else 0) := by
  induction lines generalizing idx st with
  | nil =>
    simp [process_lines]
  | cons line rest ih =>
    simp only [process_lines]
    by_cases hskip : idx < st.offset
    · rw [if_pos hskip]
      exact ih (idx + 1) st
    rw [if_neg hskip]
    cases line with
    | blank =>
      exact ih (idx + 1) _
    | malformed raw =>
      have h := ih (idx + 1)
        { st with
          offset := idx + 1,
          journal := st.journal ++ [⟨"invalid", some "json_parse_error", now, .raw raw⟩] }
      rw [sentCount_append] at h
      dsimp only at h ⊢
      have hz : sentCount l [(⟨"invalid", some "json_parse_error", now, .raw raw⟩ : JEntry)] = 0 := by
        simp [sentCount, jLead]
      omega
    | parsed r nk =>
      dsimp only
      have hstep := process_record_sent_step cfg r st.contact st.rate now nk l
      have key : ∀ st' : QueueState,
          st'.journal = st.journal ++ (process_record cfg r st.contact st.rate now nk).journal →
          st'.contact = (process_record cfg r st.contact st.rate now nk).contact →
          sentCount l (process_lines cfg now rest (idx + 1) st').journal +
            (if leadSentB st.contact l = true then 1 else 0) ≤
          sentCount l st.journal +
            (if leadSentB (process_lines cfg now rest (idx + 1) st').contact l = true
              then 1 else 0) := by
        intro st' hj hc
        have h := ih (idx + 1) st'
        rw [hj, sentCount_append, hc] at h
        omega
      by_cases hmut : (process_record cfg r st.contact st.rate now nk).mutated = true
      · rw [if_pos hmut]
        by_cases hadv : (process_record cfg r st.contact st.rate now nk).advance = true
        · rw [if_pos hadv]
          exact key _ rfl rfl
        · rw [if_neg hadv]
          dsimp only
          rw [sentCount_append]
          omega
      · rw [if_neg hmut]
        by_cases hadv : (process_record cfg r st.contact st.rate now nk).advance = true
        · rw [if_pos hadv]
          exact key _ rfl rfl
        · rw [if_neg hadv]
          dsimp only
          rw [sentCount_append]
          omega

/-- C3: a queue record whose lead is already sent or skipped is advanced
past silently — contact_state, rate_state and both journals unchanged,
`(advance, mutated) = (True, False)`; consequently over any single
`process_queue` pass (in particular one whose queue holds the same verified
event twice) at most one `sent` journal entry is produced per lead, and
none at all if the lead entered the pass already sent. -/
theorem dispatcher_terminal_at_most_once :
    (∀ (cfg : DispatcherConfig) (record : QRecord) (cs : ContactState) (rs : RateState)
        (now : Nat) (nk : Bool) (l : String) (st : LeadState),
      leadOpt record.lead_id = some l → assocGet cs l = some st →
      (st.status = "sent" ∨ st.status = "skipped") →
      process_record cfg record cs rs now nk = ⟨true, false, cs, rs, []⟩) ∧
    (∀ (cfg : DispatcherConfig) (lines : List QLine) (now : Nat)
        (contact : ContactState) (rate : RateState) (offset : Nat) (l : String),
      sentCount l (process_queue cfg lines now contact rate offset).journal +
        (if leadSentB contact l = true then 1 else 0) ≤ 1) := by
  constructor
  · intro cfg record cs rs now nk l st hl hget hterm
    unfold process_record
    rw [hl]
    dsimp only
    rw [hget]
    dsimp only
    rw [if_pos hterm]
  · intro cfg lines now contact rate offset l
    have h := process_lines_sent_invariant cfg now lines 0
      ⟨contact, rate, contact, rate, offset, offset, [], 0⟩ l
    dsimp only at h
    unfold process_queue
    have hz : sentCount l [] = 0 := rfl
    rw [hz] at h
    by_cases hfin : leadSentB
        (process_lines cfg now lines 0
          ⟨contact, rate, contact, rate, offset, offset, [], 0⟩).contact l = true
    · rw [if_pos hfin] at h
      omega
    · rw [if_neg hfin] at h
      omega

/-- Witness for `dispatcher_terminal_at_most_once`: a duplicate of an
already-sent lead is skipped untouched. -/
theorem dispatcher_terminal_at_most_once_witness :
    process_record webhookCfgW webhookRecW [("L1", ⟨"sent", 5, none⟩)] [] 1000 true =
      ⟨true, false, [("L1", ⟨"sent", 5, none⟩)], [], []⟩ :=
  dispatcher_terminal_at_most_once.1 webhookCfgW webhookRecW [("L1", ⟨"sent", 5, none⟩)] []
    1000 true "L1" ⟨"sent", 5, none⟩ rfl (by decide) (Or.inl rfl)


/-- Every advancing delivery branch journals an entry carrying the record. -/
theorem deliver_advance_journals (cfg : DispatcherConfig) (record : QRecord)
    (cs : ContactState) (rs : RateState) (now : Nat) (nk : Bool) (lead s : String)
    (h : (process_record_deliver cfg record cs rs now nk lead s).advance = true) :
    ∃ e ∈ (process_record_deliver cfg record cs rs now nk lead s).journal,
      e.record = .obj record := by
  unfold process_record_deliver at h ⊢
  by_cases hdry : cfg.dry_run = true
  · rw [if_pos hdry] at h ⊢
    by_cases hadv : cfg.dry_run_advance = true
    · rw [if_pos hadv]
      exact ⟨_, List.mem_singleton.mpr rfl, rfl⟩
    · rw [if_neg hadv] at h
      simp at h
  rw [if_neg hdry] at h ⊢
  by_cases hmc : channelRequiresContact cfg.channel = true ∧
      extract_contact record.payload cfg.channel = none
  · rw [if_pos hmc] at h
    simp at h
  rw [if_neg hmc] at h ⊢
  by_cases hwa : cfg.channel = "whatsapp" ∧ optTruthy cfg.waha_base_url = true ∧
      optTruthy cfg.waha_session = true
  · rw [if_pos hwa] at h ⊢
    by_cases hsend : send_whatsapp_waha cfg
        ((extract_contact record.payload cfg.channel).getD "") record nk = true
    · rw [if_pos hsend]
      exact ⟨_, List.mem_singleton.mpr rfl, rfl⟩
    · rw [if_neg hsend] at h
      simp at h
  rw [if_neg hwa] at h ⊢
  by_cases hwh : optTruthy cfg.webhook_url = false
  · rw [if_pos hwh] at h
    simp at h
  rw [if_neg hwh] at h ⊢
  dsimp only at h ⊢
  by_cases hcs : (can_send rs s cfg.rate_per_minute now).1 = false
  · rw [if_pos hcs] at h
    simp at h
  rw [if_neg hcs] at h ⊢
  by_cases hnet : nk = true
  · rw [if_pos hnet]
    exact ⟨_, List.mem_singleton.mpr rfl, rfl⟩
  · rw [if_neg hnet] at h
    simp at h

/-- Delivery either leaves the contact map unchanged or rewrites exactly
the processed record's lead. -/
theorem deliver_contact_shape (cfg : DispatcherConfig) (record : QRecord)
    (cs : ContactState) (rs : RateState) (now : Nat) (nk : Bool) (lead s : String) :
    (process_record_deliver cfg record cs rs now nk lead s).contact = cs ∨
    ∃ v, (process_record_deliver cfg record cs rs now nk lead s).contact =
      assocSet cs lead v := by
  unfold process_record_deliver
  by_cases hdry : cfg.dry_run = true
  · rw [if_pos hdry]
    by_cases hadv : cfg.dry_run_advance = true
    · rw [if_pos hadv]
      exact Or.inr ⟨_, rfl⟩
    · rw [if_neg hadv]
      exact Or.inr ⟨_, rfl⟩
  rw [if_neg hdry]
  by_cases hmc : channelRequiresContact cfg.channel = true ∧
      extract_contact record.payload cfg.channel = none
  · rw [if_pos hmc]
    exact Or.inr ⟨_, rfl⟩
  rw [if_neg hmc]
  by_cases hwa : cfg.channel = "whatsapp" ∧ optTruthy cfg.waha_base_url = true ∧
      optTruthy cfg.waha_session = true
  · rw [if_pos hwa]
    by_cases hsend : send_whatsapp_waha cfg
        ((extract_contact record.payload cfg.channel).getD "") record nk = true
    · rw [if_pos hsend]
      exact Or.inr ⟨_, rfl⟩
    · rw [if_neg hsend]
      exact Or.inr ⟨_, rfl⟩
  rw [if_neg hwa]
  by_cases hwh : optTruthy cfg.webhook_url = false
  · rw [if_pos hwh]
    exact Or.inr ⟨_, rfl⟩
  rw [if_neg hwh]
  dsimp only
  by_cases hcs : (can_send rs s cfg.rate_per_minute now).1 = false
  · rw [if_pos hcs]
    exact Or.inl rfl
  rw [if_neg hcs]
  by_cases hnet : nk = true
  · rw [if_pos hnet]
    exact Or.inr ⟨_, rfl⟩
  · rw [if_neg hnet]
    exact Or.inr ⟨_, rfl⟩

/-- An advancing `process_record` call either journals an entry for its
record, or advanced silently because the lead was already terminal. -/
theorem process_record_advance_cases (cfg : DispatcherConfig) (record : QRecord)
    (cs : ContactState) (rs : RateState) (now : Nat) (nk : Bool)
    (h : (process_record cfg record cs rs now nk).advance = true) :
    (∃ e ∈ (process_record cfg record cs rs now nk).journal, e.record = .obj record) ∨
    ((process_record cfg record cs rs now nk).contact = cs ∧
      (process_record cfg record cs rs now nk).journal = [] ∧
      ∃ lead st0, leadOpt record.lead_id = some lead ∧ assocGet cs lead = some st0 ∧
        (st0.status = "sent" ∨ st0.status = "skipped")) := by
  unfold process_record at h ⊢
  rcases hlead : leadOpt record.lead_id with _ | lead
  · exact Or.inl ⟨_, List.mem_singleton.mpr rfl, rfl⟩
  · rw [hlead] at h
    dsimp only at h ⊢
    rcases hget : assocGet cs lead with _ | st
    · rw [hget] at h
      dsimp only at h
      exact Or.inl (deliver_advance_journals cfg record cs rs now nk lead (slotKey record) h)
    · rw [hget] at h
      dsimp only at h ⊢
      by_cases hterm : st.status = "sent" ∨ st.status = "skipped"
      · rw [if_pos hterm]
        exact Or.inr ⟨rfl, rfl, lead, st, rfl, hget, hterm⟩
      · rw [if_neg hterm] at h ⊢
        by_cases hheld : st.status = "blocked" ∨ st.status = "held"
        · rw [if_pos hheld] at h
          simp at h
        · rw [if_neg hheld] at h ⊢
          exact Or.inl (deliver_advance_journals cfg record cs rs now nk lead (slotKey record) h)

/-- A sent/skipped contact-state binding survives any later record. -/
theorem process_record_preserves_terminal (cfg : DispatcherConfig) (record : QRecord)
    (cs : ContactState) (rs : RateState) (now : Nat) (nk : Bool) (l : String)
    (st0 : LeadState) (hget : assocGet cs l = some st0)
    (hterm : st0.status = "sent" ∨ st0.status = "skipped") :
    assocGet (process_record cfg record cs rs now nk).contact l = some st0 := by
  unfold process_record
  rcases hlead : leadOpt record.lead_id with _ | lead
  · exact hget
  · dsimp only
    by_cases hl : lead = l
    · subst hl
      rw [hget]
      dsimp only
      rw [if_pos hterm]
      exact hget
    · rcases hg2 : assocGet cs lead with _ | st
      · rcases deliver_contact_shape cfg record cs rs now nk lead (slotKey record) with
          hc | ⟨v, hc⟩
        · rw [hc]; exact hget
        · rw [hc, assocGet_set_ne _ _ _ _ (fun hh => hl hh.symm)]; exact hget
      · dsimp only
        by_cases hterm2 : st.status = "sent" ∨ st.status = "skipped"
        · rw [if_pos hterm2]; exact hget
        · rw [if_neg hterm2]
          by_cases hheld : st.status = "blocked" ∨ st.status = "held"
          · rw [if_pos hheld]; exact hget
          · rw [if_neg hheld]
            rcases deliver_contact_shape cfg record cs rs now nk lead (slotKey record) with
              hc | ⟨v, hc⟩
            · rw [hc]; exact hget
            · rw [hc, assocGet_set_ne _ _ _ _ (fun hh => hl hh.symm)]; exact hget

/-- A pass only appends to the journal. -/
theorem process_lines_journal_prefix (cfg : DispatcherConfig) (now : Nat) :
    ∀ (lines : List QLine) (idx : Nat) (st : QueueState),
      ∃ t, (process_lines cfg now lines idx st).journal = st.journal ++ t := by
  intro lines
  induction lines with
  | nil =>
    intro idx st
    exact ⟨[], by simp [process_lines]⟩
  | cons line rest ih =>
    intro idx st
    simp only [process_lines]
    by_cases hskip : idx < st.offset
    · rw [if_pos hskip]
      exact ih (idx + 1) st
    rw [if_neg hskip]
    cases line with
    | blank =>
      exact ih (idx + 1) _
    | malformed raw =>
      obtain ⟨t, ht⟩ := ih (idx + 1)
        { st with
          offset := idx + 1,
          journal := st.journal ++ [⟨"invalid", some "json_parse_error", now, .raw raw⟩] }
      refine ⟨⟨"invalid", some "json_parse_error", now, .raw raw⟩ :: t, ?_⟩
      rw [ht]
      simp
    | parsed r nk =>
      dsimp only
      by_cases hmut : (process_record cfg r st.contact st.rate now nk).mutated = true
      · rw [if_pos hmut]
        by_cases hadv : (process_record cfg r st.contact st.rate now nk).advance = true
        · rw [if_pos hadv]
          obtain ⟨t, ht⟩ := ih (idx + 1) _
          exact ⟨(process_record cfg r st.contact st.rate now nk).journal ++ t,
            by rw [ht]; simp⟩
        · rw [if_neg hadv]
          exact ⟨(process_record cfg r st.contact st.rate now nk).journal, rfl⟩
      · rw [if_neg hmut]
        by_cases hadv : (process_record cfg r st.contact st.rate now nk).advance = true
        · rw [if_pos hadv]
          obtain ⟨t, ht⟩ := ih (idx + 1) _
          exact ⟨(process_record cfg r st.contact st.rate now nk).journal ++ t,
            by rw [ht]; simp⟩
        · rw [if_neg hadv]
          exact ⟨(process_record cfg r st.contact st.rate now nk).journal, rfl⟩

/-- A sent/skipped binding survives the rest of a pass. -/
theorem process_lines_preserves_terminal (cfg : DispatcherConfig) (now : Nat) :
    ∀ (lines : List QLine) (idx : Nat) (st : QueueState) (l : String) (st0 : LeadState),
      assocGet st.contact l = some st0 →
      (st0.status = "sent" ∨ st0.status = "skipped") →
      assocGet (process_lines cfg now lines idx st).contact l = some st0 := by
  intro lines
  induction lines with
  | nil =>
    intro idx st l st0 hget _
    simpa [process_lines] using hget
  | cons line rest ih =>
    intro idx st l st0 hget hterm
    simp only [process_lines]
    by_cases hskip : idx < st.offset
    · rw [if_pos hskip]
      exact ih (idx + 1) st l st0 hget hterm
    rw [if_neg hskip]
    cases line with
    | blank =>
      exact ih (idx + 1) _ l st0 hget hterm
    | malformed raw =>
      exact ih (idx + 1) _ l st0 hget hterm
    | parsed r nk =>
      dsimp only
      have hrec := process_record_preserves_terminal cfg r st.contact st.rate now nk l st0
        hget hterm
      by_cases hmut : (process_record cfg r st.contact st.rate now nk).mutated = true
      · rw [if_pos hmut]
        by_cases hadv : (process_record cfg r st.contact st.rate now nk).advance = true
        · rw [if_pos hadv]
          exact ih (idx + 1) _ l st0 hrec hterm
        · rw [if_neg hadv]
          exact hrec
      · rw [if_neg hmut]
        by_cases hadv : (process_record cfg r st.contact st.rate now nk).advance = true
        · rw [if_pos hadv]
          exact ih (idx + 1) _ l st0 hrec hterm
        · rw [if_neg hadv]
          exact hrec

/-- Offset monotonicity of one pass: the in-memory offset and the offset
file never decrease, the file never runs ahead of the in-memory cursor,
and the cursor never leaves the file's line range. -/
theorem process_lines_offset_mono (cfg : DispatcherConfig) (now : Nat) :
    ∀ (lines : List QLine) (idx : Nat) (st : QueueState),
      st.fileOffset ≤ st.offset →
      st.offset ≤ (process_lines cfg now lines idx st).offset ∧
      st.fileOffset ≤ (process_lines cfg now lines idx st).fileOffset ∧
      (process_lines cfg now lines idx st).fileOffset ≤
        (process_lines cfg now lines idx st).offset ∧
      (process_lines cfg now lines idx st).offset ≤ max st.offset (idx + lines.length) := by
  intro lines
  induction lines with
  | nil =>
    intro idx st hfo
    simp only [process_lines]
    exact ⟨le_refl _, le_refl _, hfo, by simp⟩
  | cons line rest ih =>
    intro idx st hfo
    simp only [process_lines]
    by_cases hskip : idx < st.offset
    · rw [if_pos hskip]
      obtain ⟨h1, h2, h3, h4⟩ := ih (idx + 1) st hfo
      refine ⟨h1, h2, h3, ?_⟩
      simp only [List.length_cons] at *
      omega
    rw [if_neg hskip]
    cases line with
    | blank =>
      dsimp only
      obtain ⟨h1, h2, h3, h4⟩ := ih (idx + 1) { st with offset := idx + 1 } (by dsimp; omega)
      dsimp only at h1 h2 h3 h4
      refine ⟨by omega, h2, h3, ?_⟩
      simp only [List.length_cons] at *
      omega
    | malformed raw =>
      dsimp only
      obtain ⟨h1, h2, h3, h4⟩ := ih (idx + 1)
        { st with
          offset := idx + 1,
          journal := st.journal ++ [⟨"invalid", some "json_parse_error", now, .raw raw⟩] }
        (by dsimp; omega)
      dsimp only at h1 h2 h3 h4
      refine ⟨by omega, h2, h3, ?_⟩
      simp only [List.length_cons] at *
      omega
    | parsed r nk =>
      dsimp only
      have key : ∀ st' : QueueState, st'.offset = idx + 1 → st'.fileOffset = idx + 1 →
          st.offset ≤ (process_lines cfg now rest (idx + 1) st').offset ∧
          st.fileOffset ≤ (process_lines cfg now rest (idx + 1) st').fileOffset ∧
          (process_lines cfg now rest (idx + 1) st').fileOffset ≤
            (process_lines cfg now rest (idx + 1) st').offset ∧
          (process_lines cfg now rest (idx + 1) st').offset ≤
            max st.offset (idx + (QLine.parsed r nk :: rest).length) := by
        intro st' ho hf
        obtain ⟨h1, h2, h3, h4⟩ := ih (idx + 1) st' (by rw [ho, hf])
        rw [ho] at h1 h4
        rw [hf] at h2
        refine ⟨by omega, by omega, h3, ?_⟩
        simp only [List.length_cons] at *
        omega
      by_cases hmut : (process_record cfg r st.contact st.rate now nk).mutated = true
      · rw [if_pos hmut]
        by_cases hadv : (process_record cfg r st.contact st.rate now nk).advance = true
        · rw [if_pos hadv]
          exact key _ rfl rfl
        · rw [if_neg hadv]
          exact ⟨le_refl _, le_refl _, hfo, by simp⟩
      · rw [if_neg hmut]
        by_cases hadv : (process_record cfg r st.contact st.rate now nk).advance = true
        · rw [if_pos hadv]
          exact key _ rfl rfl
        · rw [if_neg hadv]
          exact ⟨le_refl _, le_refl _, hfo, by simp⟩

/-- Accounting for every line the pass advanced past: it was blank, or its
decision was journaled this pass, or it is a record whose lead ended the
pass in a terminal (sent / skipped) contact state — the silent advance,
whose decision an earlier pass journaled. -/
theorem process_lines_line_accounting (cfg : DispatcherConfig) (now : Nat) :
    ∀ (lines : List QLine) (idx : Nat) (st : QueueState),
      idx ≤ st.offset →
      ∀ i, st.offset ≤ i → i < (process_lines cfg now lines idx st).offset →
      ∀ line, lines.get? (i - idx) = some line →
      line = QLine.blank ∨
      (∃ raw, line = QLine.malformed raw ∧
        (⟨"invalid", some "json_parse_error", now, .raw raw⟩ : JEntry) ∈
          (process_lines cfg now lines idx st).journal) ∨
      (∃ r nk, line = QLine.parsed r nk ∧
        ((∃ e ∈ (process_lines cfg now lines idx st).journal, e.record = .obj r) ∨
         (∃ lead st0, leadOpt r.lead_id = some lead ∧
           assocGet (process_lines cfg now lines idx st).contact lead = some st0 ∧
           (st0.status = "sent" ∨ st0.status = "skipped")))) := by
  intro lines
  induction lines with
  | nil =>
    intro idx st _ i hlo hhi line hget
    simp only [process_lines] at hhi
    omega
  | cons line0 rest ih =>
    intro idx st hidx i hlo hhi line hget
    simp only [process_lines] at hhi ⊢
    by_cases hskip : idx < st.offset
    · rw [if_pos hskip] at hhi ⊢
      have hd : i - idx = (i - (idx + 1)) + 1 := by omega
      rw [hd, List.get?_cons_succ] at hget
      exact ih (idx + 1) st (by omega) i hlo hhi line hget
    rw [if_neg hskip] at hhi ⊢
    have heq : st.offset = idx := by omega
    by_cases hi : i = idx
    · subst hi
      have hln : line = line0 := by
        have : i - i = 0 := by omega
        rw [this] at hget
        simpa using hget.symm
      subst hln
      cases line with
      | blank => exact Or.inl rfl
      | malformed raw =>
        refine Or.inr (Or.inl ⟨raw, rfl, ?_⟩)
        obtain ⟨t, ht⟩ := process_lines_journal_prefix cfg now rest (i + 1)
          { st with
            offset := i + 1,
            journal := st.journal ++ [⟨"invalid", some "json_parse_error", now, .raw raw⟩] }
        dsimp only
        rw [ht]
        simp
      | parsed r nk =>
        refine Or.inr (Or.inr ⟨r, nk, rfl, ?_⟩)
        dsimp only at hhi ⊢
        by_cases hadv : (process_record cfg r st.contact st.rate now nk).advance = true
        · rcases process_record_advance_cases cfg r st.contact st.rate now nk hadv with
            ⟨e, hmem, he⟩ | ⟨hc, hj, lead, st0, hlead, hget0, hterm⟩
          · left
            by_cases hmut : (process_record cfg r st.contact st.rate now nk).mutated = true
            · rw [if_pos hmut, if_pos hadv] at hhi ⊢
              obtain ⟨t, ht⟩ := process_lines_journal_prefix cfg now rest (i + 1) _
              refine ⟨e, ?_, he⟩
              rw [ht]
              dsimp only
              exact List.mem_append_left _ (List.mem_append_right _ hmem)
            · rw [if_neg hmut, if_pos hadv] at hhi ⊢
              obtain ⟨t, ht⟩ := process_lines_journal_prefix cfg now rest (i + 1) _
              refine ⟨e, ?_, he⟩
              rw [ht]
              dsimp only
              exact List.mem_append_left _ (List.mem_append_right _ hmem)
          · right
            refine ⟨lead, st0, hlead, ?_, hterm⟩
            have hget1 : assocGet (process_record cfg r st.contact st.rate now nk).contact
                lead = some st0 := by
              rw [hc]
              exact hget0
            by_cases hmut : (process_record cfg r st.contact st.rate now nk).mutated = true
            · rw [if_pos hmut, if_pos hadv] at hhi ⊢
              exact process_lines_preserves_terminal cfg now rest (i + 1) _ lead st0 hget1
                hterm
            · rw [if_neg hmut, if_pos hadv] at hhi ⊢
              exact process_lines_preserves_terminal cfg now rest (i + 1) _ lead st0 hget1
                hterm
        · exfalso
          by_cases hmut : (process_record cfg r st.contact st.rate now nk).mutated = true
          · rw [if_pos hmut, if_neg hadv] at hhi
            dsimp only at hhi
            omega
          · rw [if_neg hmut, if_neg hadv] at hhi
            dsimp only at hhi
            omega
    · have hd : i - idx = (i - (idx + 1)) + 1 := by omega
      rw [hd, List.get?_cons_succ] at hget
      cases line0 with
      | blank =>
        exact ih (idx + 1) _ (by dsimp; omega) i (by dsimp; omega) hhi line hget
      | malformed raw =>
        exact ih (idx + 1) _ (by dsimp; omega) i (by dsimp; omega) hhi line hget
      | parsed r nk =>
        dsimp only at hhi ⊢
        by_cases hadv : (process_record cfg r st.contact st.rate now nk).advance = true
        · by_cases hmut : (process_record cfg r st.contact st.rate now nk).mutated = true
          · rw [if_pos hmut, if_pos hadv] at hhi ⊢
            exact ih (idx + 1) _ (by dsimp; omega) i (by dsimp; omega) hhi line hget
          · rw [if_neg hmut, if_pos hadv] at hhi ⊢
            exact ih (idx + 1) _ (by dsimp; omega) i (by dsimp; omega) hhi line hget
        · exfalso
          by_cases hmut : (process_record cfg r st.contact st.rate now nk).mutated = true
          · rw [if_pos hmut, if_neg hadv] at hhi
            dsimp only at hhi
            omega
          · rw [if_neg hmut, if_neg hadv] at hhi
            dsimp only at hhi
            omega

/-- C4 counterexample: a queue whose first line is blank; after one pass
the offset file reads 2, yet the single journal entry is the `sent` for
line 1 — line 0 was advanced past without any journaled decision. -/
theorem dispatcher_blank_skips_without_journal :
    (process_queue webhookCfgW [.blank, .parsed webhookRecW true] 1000 [] [] 0).fileOffset = 2 ∧
    (process_queue webhookCfgW [.blank, .parsed webhookRecW true] 1000 [] [] 0).journal =
      [⟨"sent", none, 1000, .obj webhookRecW⟩] := by
  constructor <;> decide

/-- C4 amended: across every pass of `process_queue`, including restarts
(the next pass starts from the written offset file), the offset and the
offset file are monotonically non-decreasing, the file never exceeds the
cursor, and the cursor stays within the queue's line range; every line the
cursor advanced past is blank (skipped without journaling), or had its
terminal decision (invalid / skipped / sent) journaled in this pass, or is
a record whose lead is terminal in the contact state (silent advance, the
decision journaled by an earlier pass). Blocked and failed records are
never advanced past. -/
theorem dispatcher_offset_monotone_and_journaled
    (cfg : DispatcherConfig) (lines : List QLine) (now : Nat)
    (contact : ContactState) (rate : RateState) (offset : Nat) :
    (offset ≤ (process_queue cfg lines now contact rate offset).offset ∧
     offset ≤ (process_queue cfg lines now contact rate offset).fileOffset ∧
     (process_queue cfg lines now contact rate offset).fileOffset ≤
       (process_queue cfg lines now contact rate offset).offset ∧
     (process_queue cfg lines now contact rate offset).offset ≤ max offset lines.length) ∧
    (∀ (lines2 : List QLine) (now2 : Nat) (c2 : ContactState) (r2 : RateState),
      offset ≤ (process_queue cfg lines2 now2 c2 r2
        (process_queue cfg lines now contact rate offset).fileOffset).fileOffset) ∧
    (∀ i, offset ≤ i → i < (process_queue cfg lines now contact rate offset).offset →
      ∀ line, lines.get? i = some line →
      line = QLine.blank ∨
      (∃ raw, line = QLine.malformed raw ∧
        (⟨"invalid", some "json_parse_error", now, .raw raw⟩ : JEntry) ∈
          (process_queue cfg lines now contact rate offset).journal) ∨
      (∃ r nk, line = QLine.parsed r nk ∧
        ((∃ e ∈ (process_queue cfg lines now contact rate offset).journal,
            e.record = .obj r) ∨
         (∃ lead st0, leadOpt r.lead_id = some lead ∧
           assocGet (process_queue cfg lines now contact rate offset).contact lead = some st0 ∧
           (st0.status = "sent" ∨ st0.status = "skipped"))))) := by
  have hmono := process_lines_offset_mono cfg now lines 0
    ⟨contact, rate, contact, rate, offset, offset, [], 0⟩ (le_refl _)
  dsimp only at hmono
  obtain ⟨h1, h2, h3, h4⟩ := hmono
  refine ⟨⟨h1, h2, h3, by simpa using h4⟩, ?_, ?_⟩
  · intro lines2 now2 c2 r2
    have hm2 := process_lines_offset_mono cfg now2 lines2 0
      ⟨c2, r2, c2, r2, (process_queue cfg lines now contact rate offset).fileOffset,
        (process_queue cfg lines now contact rate offset).fileOffset, [], 0⟩ (le_refl _)
    dsimp only at hm2
    unfold process_queue at *
    omega
  · intro i hlo hhi line hget
    have hacc := process_lines_line_accounting cfg now lines 0
      ⟨contact, rate, contact, rate, offset, offset, [], 0⟩ (by dsimp; omega) i
      (by dsimp; omega) hhi line (by simpa using hget)
    exact hacc

/-- Witness for `dispatcher_offset_monotone_and_journaled` on a one-line
queue that delivers. -/
theorem dispatcher_offset_monotone_and_journaled_witness :
    (process_queue webhookCfgW [.parsed webhookRecW true] 1000 [] [] 0).fileOffset ≤
      (process_queue webhookCfgW [.parsed webhookRecW true] 1000 [] [] 0).offset ∧
    (QLine.parsed webhookRecW true = QLine.blank ∨
     (∃ raw, QLine.parsed webhookRecW true = QLine.malformed raw ∧
       (⟨"invalid", some "json_parse_error", 1000, .raw raw⟩ : JEntry) ∈
         (process_queue webhookCfgW [.parsed webhookRecW true] 1000 [] [] 0).journal) ∨
     (∃ r nk, QLine.parsed webhookRecW true = QLine.parsed r nk ∧
       ((∃ e ∈ (process_queue webhookCfgW [.parsed webhookRecW true] 1000 [] [] 0).journal,
           e.record = .obj r) ∨
        (∃ lead st0, leadOpt r.lead_id = some lead ∧
          assocGet (process_queue webhookCfgW [.parsed webhookRecW true] 1000 [] [] 0).contact
            lead = some st0 ∧
          (st0.status = "sent" ∨ st0.status = "skipped"))))) :=
  ⟨(dispatcher_offset_monotone_and_journaled webhookCfgW [.parsed webhookRecW true] 1000
      [] [] 0).1.2.2.1,
   (dispatcher_offset_monotone_and_journaled webhookCfgW [.parsed webhookRecW true] 1000
      [] [] 0).2.2 0 (by decide) (by decide) (QLine.parsed webhookRecW true) rfl⟩

end Engyne
